import Mathlib

/-!
# libzbc core (`lib/zbc.c`): shallow embedding and verified properties

Conventions of the embedding.

* A nullable C pointer is an `Option`: `none` is `NULL`.
* The provider operation tables (`zbc_ata_ops`, `zbc_scsi_ops`, `zbc_fake_ops`) are defined
  outside `lib/zbc.c`.  A pointer to one of them is a `zbc_ops_id`; what the table holds is the
  parameter `tbl : zbc_ops_id → zbc_ops σ`, where `σ` is the state of everything the providers
  own (device, files, provider-private data).  Provider functions are state passing.
* Every core function returns, next to its C results, the final provider state `world` and the
  list `calls` of provider operations it invoked, in order, with their arguments and results.
* `zbc_outcome.fault` is a dereference of `NULL` or an access outside an array;
  `zbc_outcome.timeout` is a loop that did not finish within the given number of rounds.
* `zbc_error` / `zbc_debug` only print and are left out.
-/

namespace Zbc

/-! ## Constants -/

/-- Linux errno `EFAULT`. -/
def EFAULT : Int := 14

/-- Linux errno `ENODEV`. -/
def ENODEV : Int := 19

/-- Linux errno `ENOMEM`. -/
def ENOMEM : Int := 12

/-- Linux errno `ENXIO`. -/
def ENXIO : Int := 6

/-- Linux errno `EINVAL`. -/
def EINVAL : Int := 22

/-- Modulus of `unsigned int` arithmetic. -/
def UINT_MOD : Nat := 2 ^ 32

/-- Modulus of `uint64_t` arithmetic. -/
def U64_MOD : Nat := 2 ^ 64

/-! ## Data model -/

/-- Identity of a provider operation table: the value of a `struct zbc_ops *`. -/
inductive zbc_ops_id where
  | zbc_ata_ops
  | zbc_scsi_ops
  | zbc_fake_ops
  deriving DecidableEq, Repr

/-- Modelled from the spec: `zbc_device_info_t` is declared in `zbc.h`; the fields are those of
the spec's Device Info (zone model, block sizes, capacity in logical blocks). -/
structure zbc_device_info where
  zbd_model : Nat
  zbd_logical_block_size : Nat
  zbd_physical_block_size : Nat
  zbd_logical_blocks : Nat
  deriving DecidableEq, Repr

/-- Modelled from the spec: `zbc_zone_t` is declared in `zbc.h`.  `zbz_start` and `zbz_length`
are the fields `zbc.c` reads; type, condition and write pointer are those of the spec's Zone. -/
structure zbc_zone where
  zbz_start : Nat
  zbz_length : Nat
  zbz_write_pointer : Nat
  zbz_type : Nat
  zbz_condition : Nat
  deriving DecidableEq, Repr

/-- The all-zero zone descriptor (what `memset(zones, 0, ...)` leaves in each slot). -/
def zbc_zone_zero : zbc_zone :=
  { zbz_start := 0, zbz_length := 0, zbz_write_pointer := 0, zbz_type := 0, zbz_condition := 0 }

/-- The fields of `zbc_device_t` that `zbc.c` names: the file name, the bound operation table
(`NULL` until bound) and the cached device information. -/
structure zbc_device where
  zbd_filename : String
  zbd_ops : Option zbc_ops_id
  zbd_info : zbc_device_info
  deriving DecidableEq, Repr

/-- What one provider `zbd_report_zones` call leaves behind: its return value, the value it
stored in `*nr_zones`, and the descriptors it stored at `zones[0]`, `zones[1]`, ... -/
structure zbc_report_reply where
  ret : Int
  nr_zones : Nat
  zones : List zbc_zone
  deriving DecidableEq, Repr

/-- The operation table `struct zbc_ops`, with the members `zbc.c` calls.  The two members
`zbc.c` tests before calling them are optional. -/
structure zbc_ops (σ : Type) where
  zbd_open : String → Int → Option zbc_device → σ → (Int × Option zbc_device) × σ
  zbd_close : zbc_device → σ → Int × σ
  zbd_report_zones : zbc_device → Nat → Nat → Bool → Nat → σ → zbc_report_reply × σ
  zbd_pread : zbc_device → zbc_zone → Nat → Nat → Nat → σ → Int × σ
  zbd_pwrite : zbc_device → zbc_zone → Nat → Nat → Nat → σ → Int × σ
  zbd_flush : zbc_device → Nat → Nat → Nat → σ → Int × σ
  zbd_reset_wp : zbc_device → Nat → σ → Int × σ
  zbd_set_zones : Option (zbc_device → Nat → Nat → σ → Int × σ)
  zbd_set_wp : Option (zbc_device → Nat → Nat → σ → Int × σ)

/-- One provider operation invoked by the core, with its arguments and what it returned. -/
inductive zbc_call where
  | zbd_open (ops : zbc_ops_id) (filename : String) (flags : Int) (ret : Int)
  | zbd_close (ops : zbc_ops_id) (dev : zbc_device) (ret : Int)
  | zbd_report_zones (ops : zbc_ops_id) (dev : zbc_device) (start_lba ro : Nat)
      (zones : Bool) (nr_zones : Nat) (reply : zbc_report_reply)
  | zbd_pread (ops : zbc_ops_id) (dev : zbc_device) (zone : zbc_zone) (buf : Nat)
      (lba_count lba_ofst : Nat) (ret : Int)
  | zbd_pwrite (ops : zbc_ops_id) (dev : zbc_device) (zone : zbc_zone) (buf : Nat)
      (lba_count lba_ofst : Nat) (ret : Int)
  | zbd_flush (ops : zbc_ops_id) (dev : zbc_device) (lba_ofst lba_count flags : Nat) (ret : Int)
  | zbd_reset_wp (ops : zbc_ops_id) (dev : zbc_device) (start_lba : Nat) (ret : Int)
  | zbd_set_zones (ops : zbc_ops_id) (dev : zbc_device) (conv_sz seq_sz : Nat) (ret : Int)
  | zbd_set_wp (ops : zbc_ops_id) (dev : zbc_device) (start_lba write_pointer : Nat) (ret : Int)
  deriving DecidableEq, Repr

/-- How a run of a core function ends. -/
inductive zbc_outcome (α : Type) where
  | ok (a : α)
  | fault
  | timeout
  deriving DecidableEq, Repr

/-! ## `zbc_open` -/

/-- The registry `static struct zbc_ops *zbc_ops[]`, without its `NULL` terminator. -/
def zbc_ops_array : List zbc_ops_id :=
  [zbc_ops_id.zbc_ata_ops, zbc_ops_id.zbc_scsi_ops, zbc_ops_id.zbc_fake_ops]

/-- The local variables of `zbc_open` when its `for` loop is left. -/
structure zbc_open_vars (σ : Type) where
  ret : Int
  dev : Option zbc_device
  world : σ
  calls : List zbc_call

/-- The `for` loop of `zbc_open` over the registry entries still to try. -/
def zbc_open_probe {σ : Type} (tbl : zbc_ops_id → zbc_ops σ) (filename : String) (flags : Int) :
    List zbc_ops_id → zbc_open_vars σ → zbc_outcome (zbc_open_vars σ)
  | [], v => zbc_outcome.ok v
  | id :: rest, v =>
    let r := (tbl id).zbd_open filename flags v.dev v.world
    let calls := v.calls ++ [zbc_call.zbd_open id filename flags r.1.1]
    if r.1.1 = 0 then
      match r.1.2 with
      | none => zbc_outcome.fault
      | some d =>
        zbc_outcome.ok
          { ret := r.1.1, dev := some { d with zbd_ops := some id }, world := r.2, calls := calls }
    else
      zbc_open_probe tbl filename flags rest
        { ret := r.1.1, dev := r.1.2, world := r.2, calls := calls }

/-- What `zbc_open` leaves: the return value and the caller's slot `*pdev` (`pdev = none` is a
`NULL` slot pointer, `some none` a slot holding `NULL`). -/
structure zbc_open_result (σ : Type) where
  ret : Int
  pdev : Option (Option zbc_device)
  world : σ
  calls : List zbc_call

/-- `zbc_open` run over a given registry. -/
def zbc_open_with {σ : Type} (registry : List zbc_ops_id) (tbl : zbc_ops_id → zbc_ops σ)
    (filename : String) (flags : Int) (pdev : Option (Option zbc_device)) (w : σ) :
    zbc_outcome (zbc_open_result σ) :=
  match zbc_open_probe tbl filename flags registry
      { ret := -ENODEV, dev := none, world := w, calls := [] } with
  | zbc_outcome.ok v =>
    if v.ret ≠ 0 then
      zbc_outcome.ok { ret := v.ret, pdev := pdev, world := v.world, calls := v.calls }
    else
      match pdev with
      | none => zbc_outcome.fault
      | some _ =>
        zbc_outcome.ok { ret := v.ret, pdev := some v.dev, world := v.world, calls := v.calls }
  | zbc_outcome.fault => zbc_outcome.fault
  | zbc_outcome.timeout => zbc_outcome.timeout

/-- The function `zbc_open`. -/
def zbc_open {σ : Type} (tbl : zbc_ops_id → zbc_ops σ)
    (filename : String) (flags : Int) (pdev : Option (Option zbc_device)) (w : σ) :
    zbc_outcome (zbc_open_result σ) :=
  zbc_open_with zbc_ops_array tbl filename flags pdev w

/-! ## `zbc_close` and `zbc_get_device_info` -/

/-- What a core function that only returns an `int` leaves. -/
structure zbc_int_result (σ : Type) where
  ret : Int
  world : σ
  calls : List zbc_call

/-- The function `zbc_close`. -/
def zbc_close {σ : Type} (tbl : zbc_ops_id → zbc_ops σ) (dev : Option zbc_device) (w : σ) :
    zbc_outcome (zbc_int_result σ) :=
  match dev with
  | none => zbc_outcome.fault
  | some d =>
    match d.zbd_ops with
    | none => zbc_outcome.fault
    | some id =>
      let r := (tbl id).zbd_close d w
      zbc_outcome.ok { ret := r.1, world := r.2, calls := [zbc_call.zbd_close id d r.1] }

/-- What `zbc_get_device_info` leaves: the return value and the caller's `*info`. -/
structure zbc_info_result (σ : Type) where
  ret : Int
  info : Option zbc_device_info
  world : σ
  calls : List zbc_call

/-- The function `zbc_get_device_info`; `info = none` is a `NULL` output pointer. -/
def zbc_get_device_info {σ : Type} (dev : Option zbc_device) (info : Option zbc_device_info)
    (w : σ) : zbc_outcome (zbc_info_result σ) :=
  match dev, info with
  | some d, some _ =>
    zbc_outcome.ok { ret := 0, info := some d.zbd_info, world := w, calls := [] }
  | _, _ => zbc_outcome.ok { ret := -EFAULT, info := info, world := w, calls := [] }

/-! ## `zbc_report_zones` -/

/-- The private function `zbc_do_report_zones`: the call through `dev->zbd_ops`.  `zones` tells
whether the buffer pointer passed on is non-`NULL`; `nr_zones` is the value `*nr_zones` holds. -/
def zbc_do_report_zones {σ : Type} (tbl : zbc_ops_id → zbc_ops σ) (dev : zbc_device)
    (start_lba ro : Nat) (zones : Bool) (nr_zones : Nat) (w : σ) :
    zbc_outcome (zbc_report_reply × σ × zbc_call) :=
  match dev.zbd_ops with
  | none => zbc_outcome.fault
  | some id =>
    let r := (tbl id).zbd_report_zones dev start_lba ro zones nr_zones w
    zbc_outcome.ok (r.1, r.2, zbc_call.zbd_report_zones id dev start_lba ro zones nr_zones r.1)

/-- The provider's stores `zs` at `zones[z]`, `zones[z+1]`, ... of the caller's array `buf`;
`none` when a store falls outside the array. -/
def zbc_store_zones (buf : List zbc_zone) (z : Nat) (zs : List zbc_zone) :
    Option (List zbc_zone) :=
  if zs.length = 0 then some buf
  else if z + zs.length ≤ buf.length then
    some (buf.take z ++ zs ++ buf.drop (z + zs.length))
  else none

/-- The variables of the pagination loop of `zbc_report_zones`, with the array contents. -/
structure zbc_report_vars (σ : Type) where
  ret : Int
  start_lba : Nat
  z : Nat
  nz : Nat
  zones : List zbc_zone
  world : σ
  calls : List zbc_call

/-- One round of the body of `while ( nz < *nr_zones )` in `zbc_report_zones`; `N` is
`*nr_zones`.  The flag is `false` when the round leaves the loop by `break`. -/
def zbc_report_zones_round {σ : Type} (tbl : zbc_ops_id → zbc_ops σ) (dev : zbc_device)
    (ro N : Nat) (v : zbc_report_vars σ) : zbc_outcome (zbc_report_vars σ × Bool) :=
  match zbc_do_report_zones tbl dev v.start_lba ro true ((N - v.nz) % UINT_MOD) v.world with
  | zbc_outcome.ok (r, w, c) =>
    match zbc_store_zones v.zones v.z r.zones with
    | none => zbc_outcome.fault
    | some zones =>
      if r.ret ≠ 0 then
        zbc_outcome.ok
          ({ v with ret := r.ret, zones := zones, world := w, calls := v.calls ++ [c] }, false)
      else if r.nr_zones = 0 then
        zbc_outcome.ok
          ({ v with ret := r.ret, zones := zones, world := w, calls := v.calls ++ [c] }, false)
      else
        let nz := (v.nz + r.nr_zones) % UINT_MOD
        let z := (v.z + r.nr_zones) % UINT_MOD
        match zones[(z + UINT_MOD - 1) % UINT_MOD]? with
        | none => zbc_outcome.fault
        | some last =>
          zbc_outcome.ok
            ({ ret := r.ret, start_lba := (last.zbz_start + last.zbz_length) % U64_MOD,
               z := z, nz := nz, zones := zones, world := w, calls := v.calls ++ [c] }, true)
  | zbc_outcome.fault => zbc_outcome.fault
  | zbc_outcome.timeout => zbc_outcome.timeout

/-- The loop `while ( nz < *nr_zones )` of `zbc_report_zones`, at most `fuel` rounds. -/
def zbc_report_zones_loop {σ : Type} (tbl : zbc_ops_id → zbc_ops σ) (dev : zbc_device)
    (ro N : Nat) : Nat → zbc_report_vars σ → zbc_outcome (zbc_report_vars σ)
  | 0, v => if v.nz < N then zbc_outcome.timeout else zbc_outcome.ok v
  | fuel + 1, v =>
    if v.nz < N then
      match zbc_report_zones_round tbl dev ro N v with
      | zbc_outcome.ok (v1, true) => zbc_report_zones_loop tbl dev ro N fuel v1
      | zbc_outcome.ok (v1, false) => zbc_outcome.ok v1
      | zbc_outcome.fault => zbc_outcome.fault
      | zbc_outcome.timeout => zbc_outcome.timeout
    else zbc_outcome.ok v

/-- What `zbc_report_zones` leaves: the return value, the caller's `*nr_zones`, the contents of
the caller's array `zones`, the provider state and the provider calls made. -/
structure zbc_report_result (σ : Type) where
  ret : Int
  nr_zones : Option Nat
  zones : Option (List zbc_zone)
  world : σ
  calls : List zbc_call

/-- The function `zbc_report_zones`.  `zones = some buf` is a caller array with contents `buf`
(its length is the number of slots allocated); `nr_zones = some N` is a count pointer whose
target holds `N`. -/
def zbc_report_zones {σ : Type} (fuel : Nat) (tbl : zbc_ops_id → zbc_ops σ)
    (dev : Option zbc_device) (start_lba ro : Nat) (zones : Option (List zbc_zone))
    (nr_zones : Option Nat) (w : σ) : zbc_outcome (zbc_report_result σ) :=
  match dev, nr_zones with
  | some d, some N =>
    match zones with
    | none =>
      match zbc_do_report_zones tbl d start_lba ro false N w with
      | zbc_outcome.ok (r, w1, c) =>
        zbc_outcome.ok
          { ret := r.ret, nr_zones := some r.nr_zones, zones := none, world := w1, calls := [c] }
      | zbc_outcome.fault => zbc_outcome.fault
      | zbc_outcome.timeout => zbc_outcome.timeout
    | some buf =>
      match zbc_report_zones_loop tbl d ro N fuel
          { ret := 0, start_lba := start_lba, z := 0, nz := 0, zones := buf, world := w,
            calls := [] } with
      | zbc_outcome.ok v =>
        zbc_outcome.ok
          { ret := v.ret, nr_zones := some (if v.ret = 0 then v.nz else N),
            zones := some v.zones, world := v.world, calls := v.calls }
      | zbc_outcome.fault => zbc_outcome.fault
      | zbc_outcome.timeout => zbc_outcome.timeout
  | _, _ =>
    zbc_outcome.ok
      { ret := -EFAULT, nr_zones := nr_zones, zones := zones, world := w, calls := [] }

/-! ## `zbc_list_zones` -/

/-- Modelled from the spec: `zbc_report_nr_zones` is declared in `zbc.h`; by the spec it is
`report_zones` in count-only mode, that is with an absent zone buffer. -/
def zbc_report_nr_zones {σ : Type} (fuel : Nat) (tbl : zbc_ops_id → zbc_ops σ)
    (dev : Option zbc_device) (start_lba ro : Nat) (nr_zones : Option Nat) (w : σ) :
    zbc_outcome (zbc_report_result σ) :=
  zbc_report_zones fuel tbl dev start_lba ro none nr_zones w

/-- What `zbc_list_zones` leaves: the return value and the caller's slots `*pzones` (the
returned array) and `*pnr_zones`. -/
structure zbc_list_result (σ : Type) where
  ret : Int
  pzones : Option (Option (List zbc_zone))
  pnr_zones : Option Nat
  world : σ
  calls : List zbc_call

/-- The function `zbc_list_zones`.  `malloc n` tells whether the allocation of `n` descriptors
succeeds; `nr_zones0` is the value the uninitialised local `nr_zones` happens to hold. -/
def zbc_list_zones {σ : Type} (fuel : Nat) (tbl : zbc_ops_id → zbc_ops σ) (malloc : Nat → Bool)
    (nr_zones0 : Nat) (dev : Option zbc_device) (start_lba ro : Nat)
    (pzones : Option (Option (List zbc_zone))) (pnr_zones : Option Nat) (w : σ) :
    zbc_outcome (zbc_list_result σ) :=
  match zbc_report_nr_zones fuel tbl dev start_lba ro (some nr_zones0) w with
  | zbc_outcome.ok r1 =>
    if r1.ret < 0 then
      zbc_outcome.ok
        { ret := r1.ret, pzones := pzones, pnr_zones := pnr_zones, world := r1.world,
          calls := r1.calls }
    else
      let nr_zones := r1.nr_zones.getD nr_zones0
      if malloc nr_zones = false then
        zbc_outcome.ok
          { ret := -ENOMEM, pzones := pzones, pnr_zones := pnr_zones, world := r1.world,
            calls := r1.calls }
      else
        match zbc_report_zones fuel tbl dev start_lba ro
            (some (List.replicate nr_zones zbc_zone_zero)) (some nr_zones) r1.world with
        | zbc_outcome.ok r2 =>
          if r2.ret ≠ 0 then
            zbc_outcome.ok
              { ret := r2.ret, pzones := pzones, pnr_zones := pnr_zones, world := r2.world,
                calls := r1.calls ++ r2.calls }
          else
            match pzones, pnr_zones with
            | some _, some _ =>
              zbc_outcome.ok
                { ret := r2.ret, pzones := some r2.zones, pnr_zones := r2.nr_zones,
                  world := r2.world, calls := r1.calls ++ r2.calls }
            | _, _ => zbc_outcome.fault
        | zbc_outcome.fault => zbc_outcome.fault
        | zbc_outcome.timeout => zbc_outcome.timeout
  | zbc_outcome.fault => zbc_outcome.fault
  | zbc_outcome.timeout => zbc_outcome.timeout

/-! ## `zbc_reset_write_pointer`, `zbc_pread`, `zbc_pwrite`, `zbc_flush` -/

/-- The function `zbc_reset_write_pointer`. -/
def zbc_reset_write_pointer {σ : Type} (tbl : zbc_ops_id → zbc_ops σ) (dev : Option zbc_device)
    (start_lba : Nat) (w : σ) : zbc_outcome (zbc_int_result σ) :=
  match dev with
  | none => zbc_outcome.fault
  | some d =>
    match d.zbd_ops with
    | none => zbc_outcome.fault
    | some id =>
      let r := (tbl id).zbd_reset_wp d start_lba w
      zbc_outcome.ok { ret := r.1, world := r.2, calls := [zbc_call.zbd_reset_wp id d start_lba r.1] }

/-- Conversion of the `ssize_t` local `ret` to the `int32_t` return type. -/
def zbc_int32 (x : Int) : Int := (x + 2 ^ 31) % 2 ^ 32 - 2 ^ 31

/-- The function `zbc_pread`; `buf` is the address of the caller's buffer. -/
def zbc_pread {σ : Type} (tbl : zbc_ops_id → zbc_ops σ) (dev : Option zbc_device)
    (zone : Option zbc_zone) (buf : Option Nat) (lba_count lba_ofst : Nat) (w : σ) :
    zbc_outcome (zbc_int_result σ) :=
  match dev, zone, buf with
  | some d, some zn, some b =>
    if lba_count ≠ 0 then
      match d.zbd_ops with
      | none => zbc_outcome.fault
      | some id =>
        let r := (tbl id).zbd_pread d zn b lba_count lba_ofst w
        zbc_outcome.ok
          { ret := zbc_int32 r.1, world := r.2,
            calls := [zbc_call.zbd_pread id d zn b lba_count lba_ofst r.1] }
    else zbc_outcome.ok { ret := zbc_int32 0, world := w, calls := [] }
  | _, _, _ => zbc_outcome.ok { ret := zbc_int32 (-EFAULT), world := w, calls := [] }

/-- The function `zbc_pwrite`; `buf` is the address of the caller's buffer. -/
def zbc_pwrite {σ : Type} (tbl : zbc_ops_id → zbc_ops σ) (dev : Option zbc_device)
    (zone : Option zbc_zone) (buf : Option Nat) (lba_count lba_ofst : Nat) (w : σ) :
    zbc_outcome (zbc_int_result σ) :=
  match dev, zone, buf with
  | some d, some zn, some b =>
    if lba_count ≠ 0 then
      match d.zbd_ops with
      | none => zbc_outcome.fault
      | some id =>
        let r := (tbl id).zbd_pwrite d zn b lba_count lba_ofst w
        zbc_outcome.ok
          { ret := zbc_int32 r.1, world := r.2,
            calls := [zbc_call.zbd_pwrite id d zn b lba_count lba_ofst r.1] }
    else zbc_outcome.ok { ret := zbc_int32 0, world := w, calls := [] }
  | _, _, _ => zbc_outcome.ok { ret := zbc_int32 (-EFAULT), world := w, calls := [] }

/-- The function `zbc_flush`. -/
def zbc_flush {σ : Type} (tbl : zbc_ops_id → zbc_ops σ) (dev : Option zbc_device) (w : σ) :
    zbc_outcome (zbc_int_result σ) :=
  match dev with
  | none => zbc_outcome.fault
  | some d =>
    match d.zbd_ops with
    | none => zbc_outcome.fault
    | some id =>
      let r := (tbl id).zbd_flush d 0 0 0 w
      zbc_outcome.ok { ret := r.1, world := r.2, calls := [zbc_call.zbd_flush id d 0 0 0 r.1] }

/-! ## `zbc_set_zones` and `zbc_set_write_pointer` -/

/-- The function `zbc_set_zones`. -/
def zbc_set_zones {σ : Type} (tbl : zbc_ops_id → zbc_ops σ) (dev : Option zbc_device)
    (conv_sz seq_sz : Nat) (w : σ) : zbc_outcome (zbc_int_result σ) :=
  match dev with
  | none => zbc_outcome.fault
  | some d =>
    match d.zbd_ops with
    | none => zbc_outcome.fault
    | some id =>
      match (tbl id).zbd_set_zones with
      | some f =>
        let r := f d conv_sz seq_sz w
        zbc_outcome.ok
          { ret := r.1, world := r.2, calls := [zbc_call.zbd_set_zones id d conv_sz seq_sz r.1] }
      | none => zbc_outcome.ok { ret := - ENXIO, world := w, calls := [] }

/-- The function `zbc_set_write_pointer`. -/
def zbc_set_write_pointer {σ : Type} (tbl : zbc_ops_id → zbc_ops σ) (dev : Option zbc_device)
    (start_lba write_pointer : Nat) (w : σ) : zbc_outcome (zbc_int_result σ) :=
  match dev with
  | none => zbc_outcome.fault
  | some d =>
    match d.zbd_ops with
    | none => zbc_outcome.fault
    | some id =>
      match (tbl id).zbd_set_wp with
      | some f =>
        let r := f d start_lba write_pointer w
        zbc_outcome.ok
          { ret := r.1, world := r.2,
            calls := [zbc_call.zbd_set_wp id d start_lba write_pointer r.1] }
      | none => zbc_outcome.ok { ret := - ENXIO, world := w, calls := [] }

/-! ## Reading the call list -/

/-- The return value of a provider call. -/
def zbc_call.ret : zbc_call → Int
  | zbc_call.zbd_open _ _ _ r => r
  | zbc_call.zbd_close _ _ r => r
  | zbc_call.zbd_report_zones _ _ _ _ _ _ reply => reply.ret
  | zbc_call.zbd_pread _ _ _ _ _ _ r => r
  | zbc_call.zbd_pwrite _ _ _ _ _ _ r => r
  | zbc_call.zbd_flush _ _ _ _ _ r => r
  | zbc_call.zbd_reset_wp _ _ _ r => r
  | zbc_call.zbd_set_zones _ _ _ _ r => r
  | zbc_call.zbd_set_wp _ _ _ _ r => r

/-- The count a provider report call stored in `*nr_zones` (0 for any other call). -/
def zbc_call.reply_nr_zones : zbc_call → Nat
  | zbc_call.zbd_report_zones _ _ _ _ _ _ reply => reply.nr_zones
  | _ => 0

/-- The descriptors a provider report call stored (none for any other call). -/
def zbc_call.reply_zones : zbc_call → List zbc_zone
  | zbc_call.zbd_report_zones _ _ _ _ _ _ reply => reply.zones
  | _ => []

/-- A provider whose report call, asked to fill an array of capacity `n`, never returns more
than `n` zones: it stores at most `n` descriptors, and when it returns 0 the count it stores
in `*nr_zones` is the number of descriptors it stored. -/
def zbc_report_within_capacity {σ : Type} (ops : zbc_ops σ) : Prop :=
  ∀ (dev : zbc_device) (start_lba ro n : Nat) (w : σ),
    (ops.zbd_report_zones dev start_lba ro true n w).1.zones.length ≤ n ∧
    ((ops.zbd_report_zones dev start_lba ro true n w).1.ret = 0 →
      (ops.zbd_report_zones dev start_lba ro true n w).1.nr_zones =
        (ops.zbd_report_zones dev start_lba ro true n w).1.zones.length)

/-- The reply of a provider report call (an empty reply for any other call). -/
def zbc_call.reply : zbc_call → zbc_report_reply
  | zbc_call.zbd_report_zones _ _ _ _ _ _ reply => reply
  | _ => { ret := 0, nr_zones := 0, zones := [] }

/-- The call list `calls` is a pagination of capacity `N` by provider `id` on handle `dev`,
taken up with LBA cursor `cursor` and `nz` zones accumulated: no call is made once `nz`
has reached `N`; otherwise the next call is a fill-mode report from `cursor` with requested
capacity `N - nz`; it is the last call when it fails or returns 0 zones; otherwise the
pagination goes on with the cursor at the end (start + length, modulo 2^64) of the last zone
the call returned and with the returned count added to `nz`. -/
def zbc_pagination_trace (id : zbc_ops_id) (dev : zbc_device) (ro N : Nat) :
    Nat → Nat → List zbc_call → Bool
  | _, nz, [] => decide (¬ nz < N)
  | cursor, nz, c :: rest =>
    decide (nz < N) &&
    decide (c = zbc_call.zbd_report_zones id dev cursor ro true (N - nz) c.reply) &&
    (if c.reply.ret ≠ 0 ∨ c.reply.nr_zones = 0 then rest.isEmpty
     else
      match c.reply.zones.getLast? with
      | none => false
      | some last =>
        zbc_pagination_trace id dev ro N ((last.zbz_start + last.zbz_length) % U64_MOD)
          (nz + c.reply.nr_zones) rest)

/-- The call list `calls` makes progress towards capacity `N` from `nz` zones accumulated:
every call is made with `nz < N`, every call that is not the last returned 0 with a positive
count, which is added to `nz`, and `nz` never exceeds `N` (after a last call that failed it
is left as it was). -/
def zbc_pagination_progress (N : Nat) : Nat → List zbc_call → Bool
  | nz, [] => decide (nz ≤ N)
  | nz, [c] => decide (nz < N) && (decide (c.ret ≠ 0) || decide (nz + c.reply_nr_zones ≤ N))
  | nz, c :: c1 :: rest =>
    decide (nz < N) && decide (c.ret = 0) && decide (0 < c.reply_nr_zones) &&
      zbc_pagination_progress N (nz + c.reply_nr_zones) (c1 :: rest)

/-- The `zbd_open` calls of a probe of `registry` in which the providers returned `rets`. -/
def zbc_open_calls (filename : String) (flags : Int) (registry : List zbc_ops_id)
    (rets : List Int) : List zbc_call :=
  List.zipWith (fun id ret => zbc_call.zbd_open id filename flags ret) registry rets

/-! ## Zone layouts and providers that serve one -/

/-- The zones of layout `L` a report from `start_lba` covers: `L` without its leading zones
that start below `start_lba`. -/
def zbc_layout_from (L : List zbc_zone) (start_lba : Nat) : List zbc_zone :=
  L.dropWhile (fun z => decide (z.zbz_start < start_lba))

/-- The zones of `L` are contiguous from LBA `s` on and have positive lengths. -/
def zbc_layout_chain : Nat → List zbc_zone → Bool
  | _, [] => true
  | s, z :: rest =>
    decide (z.zbz_start = s) && decide (0 < z.zbz_length) &&
      zbc_layout_chain (s + z.zbz_length) rest

/-- The LBA at which a run of zones that starts at `s` ends. -/
def zbc_layout_end : Nat → List zbc_zone → Nat
  | s, [] => s
  | _, z :: rest => zbc_layout_end (z.zbz_start + z.zbz_length) rest

/-- A provider that serves the fixed zone layout `L` with at most `m` zones per command: asked
to fill an array of capacity `n` from `start_lba`, it returns 0 and the first `min n m` zones
of the layout from `start_lba` on; in count-only mode it returns 0 and their number. -/
def zbc_serves_layout {σ : Type} (ops : zbc_ops σ) (L : List zbc_zone) (m : Nat) : Prop :=
  ∀ (dev : zbc_device) (start_lba ro n : Nat) (w : σ),
    (ops.zbd_report_zones dev start_lba ro true n w).1 =
      { ret := 0, nr_zones := ((zbc_layout_from L start_lba).take (min n m)).length,
        zones := (zbc_layout_from L start_lba).take (min n m) } ∧
    (ops.zbd_report_zones dev start_lba ro false n w).1 =
      { ret := 0, nr_zones := (zbc_layout_from L start_lba).length, zones := [] }

/-- What caller-driven pagination leaves: the last return value and the zones collected. -/
structure zbc_pagination_result (σ : Type) where
  ret : Int
  zones : List zbc_zone
  world : σ

/-- Caller-driven pagination as the spec words it: call `zbc_report_zones` again and again with
a zeroed buffer of the small capacity `k`, each call starting at the end (start + length) of
the last zone the previous call returned, appending the zones of each call, until a call
fails, returns count 0, or `want` zones are collected (the layout is exhausted).  At most
`pages` calls are made. -/
def zbc_caller_pagination {σ : Type} (fuel : Nat) (tbl : zbc_ops_id → zbc_ops σ)
    (dev : zbc_device) (ro k want : Nat) :
    Nat → Nat → List zbc_zone → σ → zbc_outcome (zbc_pagination_result σ)
  | 0, _, _, _ => zbc_outcome.timeout
  | pages + 1, start_lba, acc, w =>
    match zbc_report_zones fuel tbl (some dev) start_lba ro
        (some (List.replicate k zbc_zone_zero)) (some k) w with
    | zbc_outcome.ok r =>
      if r.ret ≠ 0 then zbc_outcome.ok { ret := r.ret, zones := acc, world := r.world }
      else if r.nr_zones.getD 0 = 0 then
        zbc_outcome.ok { ret := r.ret, zones := acc, world := r.world }
      else if want ≤ (acc ++ (r.zones.getD []).take (r.nr_zones.getD 0)).length then
        zbc_outcome.ok
          { ret := r.ret, zones := acc ++ (r.zones.getD []).take (r.nr_zones.getD 0),
            world := r.world }
      else
        match ((r.zones.getD []).take (r.nr_zones.getD 0)).getLast? with
        | none => zbc_outcome.fault
        | some last =>
          zbc_caller_pagination fuel tbl dev ro k want pages
            ((last.zbz_start + last.zbz_length) % U64_MOD)
            (acc ++ (r.zones.getD []).take (r.nr_zones.getD 0)) r.world
    | zbc_outcome.fault => zbc_outcome.fault
    | zbc_outcome.timeout => zbc_outcome.timeout

/-! ## Test providers -/

/-- Device information handed out by the test providers. -/
def stub_info : zbc_device_info :=
  { zbd_model := 1, zbd_logical_block_size := 512, zbd_physical_block_size := 4096,
    zbd_logical_blocks := 1024 }

/-- A test provider over a call counter: `zbd_open` returns `open_ret` (producing a handle when
that is 0), the transfer operations return `io_ret`, every call adds one to the counter. -/
def stub_ops (open_ret io_ret : Int) : zbc_ops Nat where
  zbd_open := fun filename _ dev w =>
    if open_ret = 0 then
      ((0, some { zbd_filename := filename, zbd_ops := none, zbd_info := stub_info }), w + 1)
    else ((open_ret, dev), w + 1)
  zbd_close := fun _ w => (0, w + 1)
  zbd_report_zones := fun _ _ _ _ _ w => ({ ret := 0, nr_zones := 0, zones := [] }, w + 1)
  zbd_pread := fun _ _ _ _ _ w => (io_ret, w + 1)
  zbd_pwrite := fun _ _ _ _ _ w => (io_ret, w + 1)
  zbd_flush := fun _ _ _ _ w => (0, w + 1)
  zbd_reset_wp := fun _ _ w => (0, w + 1)
  zbd_set_zones := none
  zbd_set_wp := none

/-- A table of test providers with the given `zbd_open` results for ATA, SCSI and fake. -/
def stub_tbl (a s f : Int) : zbc_ops_id → zbc_ops Nat
  | zbc_ops_id.zbc_ata_ops => stub_ops a 1
  | zbc_ops_id.zbc_scsi_ops => stub_ops s 1
  | zbc_ops_id.zbc_fake_ops => stub_ops f 1

/-- The handle the test providers produce for `filename`, bound to `id`. -/
def stub_dev (filename : String) (id : zbc_ops_id) : zbc_device :=
  { zbd_filename := filename, zbd_ops := some id, zbd_info := stub_info }

/-- A test provider over a call counter that serves layout `L` with at most `m` zones per
command; a report from the LBA `fail_at` fails with `-5` instead. -/
def layout_ops (L : List zbc_zone) (m : Nat) (fail_at : Option Nat) : zbc_ops Nat where
  zbd_open := fun filename _ _ w =>
    ((0, some { zbd_filename := filename, zbd_ops := none, zbd_info := stub_info }), w + 1)
  zbd_close := fun _ w => (0, w + 1)
  zbd_report_zones := fun _ start_lba _ zones n w =>
    if fail_at = some start_lba then ({ ret := -5, nr_zones := 0, zones := [] }, w + 1)
    else if zones = true then
      ({ ret := 0, nr_zones := ((zbc_layout_from L start_lba).take (min n m)).length,
         zones := (zbc_layout_from L start_lba).take (min n m) }, w + 1)
    else ({ ret := 0, nr_zones := (zbc_layout_from L start_lba).length, zones := [] }, w + 1)
  zbd_pread := fun _ _ _ lba_count _ w => (lba_count, w + 1)
  zbd_pwrite := fun _ _ _ lba_count _ w => (lba_count, w + 1)
  zbd_flush := fun _ _ _ _ w => (0, w + 1)
  zbd_reset_wp := fun _ _ w => (0, w + 1)
  zbd_set_zones := none
  zbd_set_wp := none

/-- A zone of the test layout: `start`, `length`, write pointer at the start. -/
def layout_zone (start length : Nat) : zbc_zone :=
  { zbz_start := start, zbz_length := length, zbz_write_pointer := start, zbz_type := 2,
    zbz_condition := 1 }

/-- A test layout of 5 zones covering `[0, 1024)`. -/
def layout5 : List zbc_zone :=
  [layout_zone 0 256, layout_zone 256 256, layout_zone 512 128, layout_zone 640 128,
   layout_zone 768 256]

/-- The handle of the test device: 1024 logical blocks, bound to the fake provider. -/
def layout_dev : zbc_device := stub_dev "/dev/zbc0" zbc_ops_id.zbc_fake_ops

/-- The table in which every provider is the test provider `layout_ops L m fail_at`. -/
def layout_tbl (L : List zbc_zone) (m : Nat) (fail_at : Option Nat) : zbc_ops_id → zbc_ops Nat :=
  fun _ => layout_ops L m fail_at

/-- A test provider that implements the two optional operations: like `stub_ops 0 1`, with
`zbd_set_zones` and `zbd_set_wp` returning 0 and counting the call. -/
def hacked_ops : zbc_ops Nat :=
  { stub_ops 0 1 with
    zbd_set_zones := some (fun _ _ _ w => (0, w + 1))
    zbd_set_wp := some (fun _ _ _ w => (0, w + 1)) }

/-- The table in which every provider is `hacked_ops`. -/
def hacked_tbl : zbc_ops_id → zbc_ops Nat :=
  fun _ => hacked_ops

/-! ## Theorems -/

/-! ### `zbc_open` -/

/-- C1: `zbc_open` probes ATA, then SCSI, then the fake provider.  If provider k is the first
whose `zbd_open` returns 0 (leaving a handle), `zbc_open` returns 0, the caller's slot holds
that handle with `zbd_ops` set to provider k, the providers before k were each called exactly
once, in order, and no provider after k is called. -/
theorem zbc_open_first_success {σ : Type} (tbl : zbc_ops_id → zbc_ops σ) (filename : String)
    (flags : Int) (slot : Option zbc_device) (w : σ) :
    (∀ d w1, (tbl zbc_ops_id.zbc_ata_ops).zbd_open filename flags none w = ((0, some d), w1) →
      zbc_open tbl filename flags (some slot) w = zbc_outcome.ok
        { ret := 0, pdev := some (some { d with zbd_ops := some zbc_ops_id.zbc_ata_ops }),
          world := w1,
          calls := [zbc_call.zbd_open zbc_ops_id.zbc_ata_ops filename flags 0] }) ∧
    (∀ r0 d0 w1 d w2,
      (tbl zbc_ops_id.zbc_ata_ops).zbd_open filename flags none w = ((r0, d0), w1) → r0 ≠ 0 →
      (tbl zbc_ops_id.zbc_scsi_ops).zbd_open filename flags d0 w1 = ((0, some d), w2) →
      zbc_open tbl filename flags (some slot) w = zbc_outcome.ok
        { ret := 0, pdev := some (some { d with zbd_ops := some zbc_ops_id.zbc_scsi_ops }),
          world := w2,
          calls := [zbc_call.zbd_open zbc_ops_id.zbc_ata_ops filename flags r0,
                    zbc_call.zbd_open zbc_ops_id.zbc_scsi_ops filename flags 0] }) ∧
    (∀ r0 d0 w1 r1 d1 w2 d w3,
      (tbl zbc_ops_id.zbc_ata_ops).zbd_open filename flags none w = ((r0, d0), w1) → r0 ≠ 0 →
      (tbl zbc_ops_id.zbc_scsi_ops).zbd_open filename flags d0 w1 = ((r1, d1), w2) → r1 ≠ 0 →
      (tbl zbc_ops_id.zbc_fake_ops).zbd_open filename flags d1 w2 = ((0, some d), w3) →
      zbc_open tbl filename flags (some slot) w = zbc_outcome.ok
        { ret := 0, pdev := some (some { d with zbd_ops := some zbc_ops_id.zbc_fake_ops }),
          world := w3,
          calls := [zbc_call.zbd_open zbc_ops_id.zbc_ata_ops filename flags r0,
                    zbc_call.zbd_open zbc_ops_id.zbc_scsi_ops filename flags r1,
                    zbc_call.zbd_open zbc_ops_id.zbc_fake_ops filename flags 0] }) := by
  refine ⟨?_, ?_, ?_⟩
  · intro d w1 h0
    simp [zbc_open, zbc_open_with, zbc_ops_array, zbc_open_probe, h0]
  · intro r0 d0 w1 d w2 h0 hr0 h1
    simp [zbc_open, zbc_open_with, zbc_ops_array, zbc_open_probe, h0, hr0, h1]
  · intro r0 d0 w1 r1 d1 w2 d w3 h0 hr0 h1 hr1 h2
    simp [zbc_open, zbc_open_with, zbc_ops_array, zbc_open_probe, h0, hr0, h1, hr1, h2]

/-- Witness of C1: the three cases on test providers (ATA accepts; only SCSI and fake accept;
only fake accepts), with the call counter showing one, two and three provider calls. -/
theorem zbc_open_first_success_witness :
    zbc_open (stub_tbl 0 0 0) "/dev/sda" 2 (some none) 0 = zbc_outcome.ok
      { ret := 0, pdev := some (some (stub_dev "/dev/sda" zbc_ops_id.zbc_ata_ops)), world := 1,
        calls := [zbc_call.zbd_open zbc_ops_id.zbc_ata_ops "/dev/sda" 2 0] } ∧
    zbc_open (stub_tbl (-22) 0 0) "/dev/sda" 2 (some none) 0 = zbc_outcome.ok
      { ret := 0, pdev := some (some (stub_dev "/dev/sda" zbc_ops_id.zbc_scsi_ops)), world := 2,
        calls := [zbc_call.zbd_open zbc_ops_id.zbc_ata_ops "/dev/sda" 2 (-22),
                  zbc_call.zbd_open zbc_ops_id.zbc_scsi_ops "/dev/sda" 2 0] } ∧
    zbc_open (stub_tbl (-22) (-5) 0) "/dev/sda" 2 (some none) 0 = zbc_outcome.ok
      { ret := 0, pdev := some (some (stub_dev "/dev/sda" zbc_ops_id.zbc_fake_ops)), world := 3,
        calls := [zbc_call.zbd_open zbc_ops_id.zbc_ata_ops "/dev/sda" 2 (-22),
                  zbc_call.zbd_open zbc_ops_id.zbc_scsi_ops "/dev/sda" 2 (-5),
                  zbc_call.zbd_open zbc_ops_id.zbc_fake_ops "/dev/sda" 2 0] } :=
  ⟨(zbc_open_first_success (stub_tbl 0 0 0) "/dev/sda" 2 none 0).1 _ _ rfl,
   (zbc_open_first_success (stub_tbl (-22) 0 0) "/dev/sda" 2 none 0).2.1 _ _ _ _ _ rfl
      (by decide) rfl,
   (zbc_open_first_success (stub_tbl (-22) (-5) 0) "/dev/sda" 2 none 0).2.2 _ _ _ _ _ _ _ _ rfl
      (by decide) rfl (by decide) rfl⟩

/-- Counterexample to C2: all three test providers reject the path with `-EINVAL`, and
`zbc_open` returns `-EINVAL`, which is not `-ENODEV`. -/
theorem zbc_open_all_reject_not_enodev :
    (∀ id dev w, ((stub_tbl (-22) (-22) (-22) id).zbd_open "/dev/sda" 2 dev w).1.1 ≠ 0) ∧
    zbc_open (stub_tbl (-22) (-22) (-22)) "/dev/sda" 2 (some none) 0 = zbc_outcome.ok
      { ret := -EINVAL, pdev := some none, world := 3,
        calls := [zbc_call.zbd_open zbc_ops_id.zbc_ata_ops "/dev/sda" 2 (-22),
                  zbc_call.zbd_open zbc_ops_id.zbc_scsi_ops "/dev/sda" 2 (-22),
                  zbc_call.zbd_open zbc_ops_id.zbc_fake_ops "/dev/sda" 2 (-22)] } ∧
    -EINVAL ≠ -ENODEV := by
  refine ⟨?_, rfl, by decide⟩
  intro id dev w
  cases id <;> simp [stub_tbl, stub_ops]

/-- C2 (amended): when ATA, SCSI and the fake provider all reject the path, `zbc_open` returns
the non-zero result of the fake provider, the last one tried, after calling each provider
once; the result is `-ENODEV` exactly when that is what the fake provider returned. -/
theorem zbc_open_all_reject {σ : Type} (tbl : zbc_ops_id → zbc_ops σ) (filename : String)
    (flags : Int) (pdev : Option (Option zbc_device)) (w : σ)
    (r0 r1 r2 : Int) (d0 d1 d2 : Option zbc_device) (w1 w2 w3 : σ)
    (h0 : (tbl zbc_ops_id.zbc_ata_ops).zbd_open filename flags none w = ((r0, d0), w1))
    (hr0 : r0 ≠ 0)
    (h1 : (tbl zbc_ops_id.zbc_scsi_ops).zbd_open filename flags d0 w1 = ((r1, d1), w2))
    (hr1 : r1 ≠ 0)
    (h2 : (tbl zbc_ops_id.zbc_fake_ops).zbd_open filename flags d1 w2 = ((r2, d2), w3))
    (hr2 : r2 ≠ 0) :
    zbc_open tbl filename flags pdev w = zbc_outcome.ok
      { ret := r2, pdev := pdev, world := w3,
        calls := [zbc_call.zbd_open zbc_ops_id.zbc_ata_ops filename flags r0,
                  zbc_call.zbd_open zbc_ops_id.zbc_scsi_ops filename flags r1,
                  zbc_call.zbd_open zbc_ops_id.zbc_fake_ops filename flags r2] } ∧
    (∀ r, zbc_open tbl filename flags pdev w = zbc_outcome.ok r →
      (r.ret = -ENODEV ↔ r2 = -ENODEV)) := by
  have h : zbc_open tbl filename flags pdev w = zbc_outcome.ok
      { ret := r2, pdev := pdev, world := w3,
        calls := [zbc_call.zbd_open zbc_ops_id.zbc_ata_ops filename flags r0,
                  zbc_call.zbd_open zbc_ops_id.zbc_scsi_ops filename flags r1,
                  zbc_call.zbd_open zbc_ops_id.zbc_fake_ops filename flags r2] } := by
    simp [zbc_open, zbc_open_with, zbc_ops_array, zbc_open_probe, h0, hr0, h1, hr1, h2, hr2]
  refine ⟨h, ?_⟩
  intro r hr
  rw [h] at hr
  cases hr
  exact Iff.rfl

/-- Witness of C2 (amended): three rejecting test providers, the last one with `-ENODEV`. -/
theorem zbc_open_all_reject_witness :
    zbc_open (stub_tbl (-22) (-5) (-19)) "/dev/sda" 2 (none) 0 = zbc_outcome.ok
      { ret := -19, pdev := none, world := 3,
        calls := [zbc_call.zbd_open zbc_ops_id.zbc_ata_ops "/dev/sda" 2 (-22),
                  zbc_call.zbd_open zbc_ops_id.zbc_scsi_ops "/dev/sda" 2 (-5),
                  zbc_call.zbd_open zbc_ops_id.zbc_fake_ops "/dev/sda" 2 (-19)] } :=
  (zbc_open_all_reject (stub_tbl (-22) (-5) (-19)) "/dev/sda" 2 none 0 (-22) (-5) (-19)
    none none none 1 2 3 rfl (by decide) rfl (by decide) rfl (by decide)).1

/-- C3: whenever `zbc_open` returns a non-zero result, the caller's slot `*pdev` holds after
the call what it held before. -/
theorem zbc_open_failure_keeps_slot {σ : Type} (tbl : zbc_ops_id → zbc_ops σ)
    (filename : String) (flags : Int) (pdev : Option (Option zbc_device)) (w : σ)
    (r : zbc_open_result σ) (h : zbc_open tbl filename flags pdev w = zbc_outcome.ok r)
    (hret : r.ret ≠ 0) : r.pdev = pdev := by
  unfold zbc_open zbc_open_with at h
  split at h
  · rename_i v _
    split at h
    · cases h
      rfl
    · rename_i hv
      split at h
      · cases h
      · cases h
        exact absurd (not_not.mp hv) hret
  · cases h
  · cases h

/-- Witness of C3: three rejecting test providers and a slot that held a handle before. -/
theorem zbc_open_failure_keeps_slot_witness :
    zbc_open (stub_tbl (-22) (-5) (-19)) "/dev/sda" 2
        (some (some (stub_dev "old" zbc_ops_id.zbc_fake_ops))) 0 = zbc_outcome.ok
      { ret := -19, pdev := some (some (stub_dev "old" zbc_ops_id.zbc_fake_ops)), world := 3,
        calls := [zbc_call.zbd_open zbc_ops_id.zbc_ata_ops "/dev/sda" 2 (-22),
                  zbc_call.zbd_open zbc_ops_id.zbc_scsi_ops "/dev/sda" 2 (-5),
                  zbc_call.zbd_open zbc_ops_id.zbc_fake_ops "/dev/sda" 2 (-19)] } ∧
    (some (some (stub_dev "old" zbc_ops_id.zbc_fake_ops)) : Option (Option zbc_device)) =
      some (some (stub_dev "old" zbc_ops_id.zbc_fake_ops)) :=
  ⟨by rfl,
   zbc_open_failure_keeps_slot (stub_tbl (-22) (-5) (-19)) "/dev/sda" 2
    (some (some (stub_dev "old" zbc_ops_id.zbc_fake_ops))) 0
    { ret := -19, pdev := some (some (stub_dev "old" zbc_ops_id.zbc_fake_ops)), world := 3,
      calls := [zbc_call.zbd_open zbc_ops_id.zbc_ata_ops "/dev/sda" 2 (-22),
                zbc_call.zbd_open zbc_ops_id.zbc_scsi_ops "/dev/sda" 2 (-5),
                zbc_call.zbd_open zbc_ops_id.zbc_fake_ops "/dev/sda" 2 (-19)] }
    (by rfl) (by decide)⟩

/-! ### `zbc_pread` and `zbc_pwrite` -/

/-- C9: with handle, zone and buffer present and `lba_count == 0`, `zbc_pread` and `zbc_pwrite`
return 0 without calling the provider (no call is made and the provider state is untouched),
for every zone and every offset. -/
theorem zbc_prw_zero_count {σ : Type} (tbl : zbc_ops_id → zbc_ops σ) (d : zbc_device)
    (zone : zbc_zone) (buf lba_ofst : Nat) (w : σ) :
    zbc_pread tbl (some d) (some zone) (some buf) 0 lba_ofst w =
      zbc_outcome.ok { ret := 0, world := w, calls := [] } ∧
    zbc_pwrite tbl (some d) (some zone) (some buf) 0 lba_ofst w =
      zbc_outcome.ok { ret := 0, world := w, calls := [] } := by
  constructor <;> simp [zbc_pread, zbc_pwrite, zbc_int32]

/-- C10: when the handle, the zone or the buffer is absent, `zbc_pread` and `zbc_pwrite` return
`-EFAULT` without calling the provider, for every `lba_count` and offset. -/
theorem zbc_prw_absent_argument {σ : Type} (tbl : zbc_ops_id → zbc_ops σ)
    (dev : Option zbc_device) (zone : Option zbc_zone) (buf : Option Nat)
    (lba_count lba_ofst : Nat) (w : σ) (h : dev = none ∨ zone = none ∨ buf = none) :
    zbc_pread tbl dev zone buf lba_count lba_ofst w =
      zbc_outcome.ok { ret := -EFAULT, world := w, calls := [] } ∧
    zbc_pwrite tbl dev zone buf lba_count lba_ofst w =
      zbc_outcome.ok { ret := -EFAULT, world := w, calls := [] } := by
  have e : zbc_int32 (-EFAULT) = -EFAULT := by decide
  rcases h with h | h | h
  · subst h
    simp [zbc_pread, zbc_pwrite, e]
  · subst h
    cases dev <;> simp [zbc_pread, zbc_pwrite, e]
  · subst h
    cases dev <;> cases zone <;> simp [zbc_pread, zbc_pwrite, e]

/-- Witness of C10: a present handle and buffer, an absent zone, a non-zero count. -/
theorem zbc_prw_absent_argument_witness :
    zbc_pread (stub_tbl 0 0 0) (some (stub_dev "/dev/sda" zbc_ops_id.zbc_ata_ops)) none
        (some 4096) 8 0 0 = zbc_outcome.ok { ret := -EFAULT, world := 0, calls := [] } ∧
    zbc_pwrite (stub_tbl 0 0 0) (some (stub_dev "/dev/sda" zbc_ops_id.zbc_ata_ops)) none
        (some 4096) 8 0 0 = zbc_outcome.ok { ret := -EFAULT, world := 0, calls := [] } :=
  zbc_prw_absent_argument (stub_tbl 0 0 0) (some (stub_dev "/dev/sda" zbc_ops_id.zbc_ata_ops))
    none (some 4096) 8 0 0 (Or.inr (Or.inl rfl))

/-! ### `zbc_report_zones` -/

/-- With an absent zone buffer `zbc_report_zones` is one provider call. -/
theorem zbc_report_zones_null_buffer {σ : Type} (fuel : Nat) (tbl : zbc_ops_id → zbc_ops σ)
    (d : zbc_device) (id : zbc_ops_id) (hops : d.zbd_ops = some id)
    (start_lba ro N : Nat) (w : σ) :
    zbc_report_zones fuel tbl (some d) start_lba ro none (some N) w = zbc_outcome.ok
      { ret := ((tbl id).zbd_report_zones d start_lba ro false N w).1.ret,
        nr_zones := some ((tbl id).zbd_report_zones d start_lba ro false N w).1.nr_zones,
        zones := none,
        world := ((tbl id).zbd_report_zones d start_lba ro false N w).2,
        calls := [zbc_call.zbd_report_zones id d start_lba ro false N
                    ((tbl id).zbd_report_zones d start_lba ro false N w).1] } := by
  simp [zbc_report_zones, zbc_do_report_zones, hops]

/-- C6: with a present handle and count pointer and an absent zone buffer, `zbc_report_zones`
makes exactly one provider report call, with the caller's start LBA, reporting options, a
`NULL` buffer and the caller's count, and returns that call's result and stored count. -/
theorem zbc_report_zones_count_only {σ : Type} (fuel : Nat) (tbl : zbc_ops_id → zbc_ops σ)
    (d : zbc_device) (id : zbc_ops_id) (hops : d.zbd_ops = some id)
    (start_lba ro N : Nat) (w : σ) :
    zbc_report_zones fuel tbl (some d) start_lba ro none (some N) w = zbc_outcome.ok
      { ret := ((tbl id).zbd_report_zones d start_lba ro false N w).1.ret,
        nr_zones := some ((tbl id).zbd_report_zones d start_lba ro false N w).1.nr_zones,
        zones := none,
        world := ((tbl id).zbd_report_zones d start_lba ro false N w).2,
        calls := [zbc_call.zbd_report_zones id d start_lba ro false N
                    ((tbl id).zbd_report_zones d start_lba ro false N w).1] } :=
  zbc_report_zones_null_buffer fuel tbl d id hops start_lba ro N w

/-! ### The pagination loop: one round, and the loop rule -/

theorem zbc_store_zones_fits (buf zs : List zbc_zone) (z : Nat)
    (h : z + zs.length ≤ buf.length) :
    zbc_store_zones buf z zs = some (buf.take z ++ zs ++ buf.drop (z + zs.length)) := by
  unfold zbc_store_zones
  by_cases h0 : zs.length = 0
  · have hnil : zs = [] := List.length_eq_zero.mp h0
    simp [hnil]
  · simp [h0, h]

theorem zbc_store_zones_length (buf zs : List zbc_zone) (z : Nat)
    (h : z + zs.length ≤ buf.length) :
    (buf.take z ++ zs ++ buf.drop (z + zs.length)).length = buf.length := by
  simp only [List.length_append, List.length_take, List.length_drop]
  omega

theorem zbc_store_zones_last (buf zs : List zbc_zone) (z : Nat)
    (h : z + zs.length ≤ buf.length) (hpos : 0 < zs.length) :
    (buf.take z ++ zs ++ buf.drop (z + zs.length))[z + zs.length - 1]? = zs.getLast? := by
  have h1 : (buf.take z).length = z := by
    simp only [List.length_take]
    omega
  rw [List.append_assoc, List.getElem?_append_right (by omega), h1,
    List.getElem?_append_left (by omega), List.getLast?_eq_getElem?]
  congr 1
  omega

/-- A round whose provider call fails leaves the loop with that result. -/
theorem zbc_report_zones_round_fail {σ : Type} (tbl : zbc_ops_id → zbc_ops σ) (d : zbc_device)
    (id : zbc_ops_id) (hops : d.zbd_ops = some id) (ro N : Nat) (hN : N < UINT_MOD)
    (v : zbc_report_vars σ) (hz : v.z = v.nz) (hlen : v.zones.length = N)
    (hfit : ((tbl id).zbd_report_zones d v.start_lba ro true (N - v.nz) v.world).1.zones.length
      ≤ N - v.nz) (hlt : v.nz < N)
    (hret : ((tbl id).zbd_report_zones d v.start_lba ro true (N - v.nz) v.world).1.ret ≠ 0) :
    zbc_report_zones_round tbl d ro N v = zbc_outcome.ok
      ({ v with
          ret := ((tbl id).zbd_report_zones d v.start_lba ro true (N - v.nz) v.world).1.ret,
          zones := v.zones.take v.nz ++
            ((tbl id).zbd_report_zones d v.start_lba ro true (N - v.nz) v.world).1.zones ++
            v.zones.drop (v.nz +
              ((tbl id).zbd_report_zones d v.start_lba ro true (N - v.nz) v.world).1.zones.length),
          world := ((tbl id).zbd_report_zones d v.start_lba ro true (N - v.nz) v.world).2,
          calls := v.calls ++ [zbc_call.zbd_report_zones id d v.start_lba ro true (N - v.nz)
            ((tbl id).zbd_report_zones d v.start_lba ro true (N - v.nz) v.world).1] }, false) := by
  have hmod : (N - v.nz) % UINT_MOD = N - v.nz := Nat.mod_eq_of_lt (by omega)
  have hst := zbc_store_zones_fits v.zones
    ((tbl id).zbd_report_zones d v.start_lba ro true (N - v.nz) v.world).1.zones v.nz (by omega)
  simp [zbc_report_zones_round, zbc_do_report_zones, hops, hmod, hz, hst, hret]

/-- A round whose provider call succeeds with count 0 leaves the loop. -/
theorem zbc_report_zones_round_zero {σ : Type} (tbl : zbc_ops_id → zbc_ops σ) (d : zbc_device)
    (id : zbc_ops_id) (hops : d.zbd_ops = some id) (ro N : Nat) (hN : N < UINT_MOD)
    (v : zbc_report_vars σ) (hz : v.z = v.nz) (hlt : v.nz < N)
    (hret : ((tbl id).zbd_report_zones d v.start_lba ro true (N - v.nz) v.world).1.ret = 0)
    (hcnt : ((tbl id).zbd_report_zones d v.start_lba ro true (N - v.nz) v.world).1.nr_zones = 0)
    (hnil : ((tbl id).zbd_report_zones d v.start_lba ro true (N - v.nz) v.world).1.zones = []) :
    zbc_report_zones_round tbl d ro N v = zbc_outcome.ok
      ({ v with
          ret := 0,
          world := ((tbl id).zbd_report_zones d v.start_lba ro true (N - v.nz) v.world).2,
          calls := v.calls ++ [zbc_call.zbd_report_zones id d v.start_lba ro true (N - v.nz)
            ((tbl id).zbd_report_zones d v.start_lba ro true (N - v.nz) v.world).1] }, false) := by
  have hmod : (N - v.nz) % UINT_MOD = N - v.nz := Nat.mod_eq_of_lt (by omega)
  simp [zbc_report_zones_round, zbc_do_report_zones, hops, hmod, hz, hret, hcnt, hnil,
    zbc_store_zones]

/-- A round whose provider call succeeds with a positive count stores the zones, adds the
count and moves the cursor to the end of the last zone stored. -/
theorem zbc_report_zones_round_more {σ : Type} (tbl : zbc_ops_id → zbc_ops σ) (d : zbc_device)
    (id : zbc_ops_id) (hops : d.zbd_ops = some id) (ro N : Nat) (hN : N < UINT_MOD)
    (v : zbc_report_vars σ) (hz : v.z = v.nz) (hlen : v.zones.length = N) (hlt : v.nz < N)
    (hfit : ((tbl id).zbd_report_zones d v.start_lba ro true (N - v.nz) v.world).1.zones.length
      ≤ N - v.nz)
    (hret : ((tbl id).zbd_report_zones d v.start_lba ro true (N - v.nz) v.world).1.ret = 0)
    (hcnt : ((tbl id).zbd_report_zones d v.start_lba ro true (N - v.nz) v.world).1.nr_zones =
      ((tbl id).zbd_report_zones d v.start_lba ro true (N - v.nz) v.world).1.zones.length)
    (hpos : ((tbl id).zbd_report_zones d v.start_lba ro true (N - v.nz) v.world).1.nr_zones ≠ 0) :
    ∃ last,
      ((tbl id).zbd_report_zones d v.start_lba ro true (N - v.nz) v.world).1.zones.getLast?
        = some last ∧
      zbc_report_zones_round tbl d ro N v = zbc_outcome.ok
        ({ ret := 0,
           start_lba := (last.zbz_start + last.zbz_length) % U64_MOD,
           z := v.nz +
            ((tbl id).zbd_report_zones d v.start_lba ro true (N - v.nz) v.world).1.zones.length,
           nz := v.nz +
            ((tbl id).zbd_report_zones d v.start_lba ro true (N - v.nz) v.world).1.zones.length,
           zones := v.zones.take v.nz ++
            ((tbl id).zbd_report_zones d v.start_lba ro true (N - v.nz) v.world).1.zones ++
            v.zones.drop (v.nz +
              ((tbl id).zbd_report_zones d v.start_lba ro true (N - v.nz) v.world).1.zones.length),
           world := ((tbl id).zbd_report_zones d v.start_lba ro true (N - v.nz) v.world).2,
           calls := v.calls ++ [zbc_call.zbd_report_zones id d v.start_lba ro true (N - v.nz)
            ((tbl id).zbd_report_zones d v.start_lba ro true (N - v.nz) v.world).1] }, true) := by
  have hmod : (N - v.nz) % UINT_MOD = N - v.nz := Nat.mod_eq_of_lt (by omega)
  generalize hr : (tbl id).zbd_report_zones d v.start_lba ro true (N - v.nz) v.world = r at *
  have hk : 0 < r.1.zones.length := by omega
  have hst := zbc_store_zones_fits v.zones r.1.zones v.nz (by omega)
  have hmod2 : (v.nz + r.1.zones.length) % UINT_MOD = v.nz + r.1.zones.length :=
    Nat.mod_eq_of_lt (by omega)
  have hidx : (v.nz + r.1.zones.length + UINT_MOD - 1) % UINT_MOD
      = v.nz + r.1.zones.length - 1 := by
    have e : v.nz + r.1.zones.length + UINT_MOD - 1
        = (v.nz + r.1.zones.length - 1) + UINT_MOD := by omega
    rw [e, Nat.add_mod_right]
    exact Nat.mod_eq_of_lt (by omega)
  have hlast := zbc_store_zones_last v.zones r.1.zones v.nz (by omega) hk
  cases hgl : r.1.zones.getLast? with
  | none =>
    rw [List.getLast?_eq_none_iff] at hgl
    rw [hgl] at hk
    simp at hk
  | some last =>
    refine ⟨last, rfl, ?_⟩
    rw [hgl, List.append_assoc] at hlast
    have hpos2 : r.1.zones.length ≠ 0 := by omega
    simp [zbc_report_zones_round, zbc_do_report_zones, hops, hmod, hz, hr, hst, hret, hcnt,
      hpos2, hmod2, hidx, hlast]

/-- The loop rule: an invariant `I` kept by every round that goes on, with the count growing,
and a postcondition `Q` reached at every exit, give a run that ends in `Q` within
`N - nz` rounds. -/
theorem zbc_report_zones_loop_rule {σ : Type} (tbl : zbc_ops_id → zbc_ops σ) (d : zbc_device)
    (ro N : Nat) (I Q : zbc_report_vars σ → Prop)
    (hexit : ∀ v, I v → ¬ v.nz < N → Q v)
    (hround : ∀ v, I v → v.nz < N →
      ∃ v1 b, zbc_report_zones_round tbl d ro N v = zbc_outcome.ok (v1, b) ∧
        (b = true → I v1 ∧ v.nz < v1.nz) ∧ (b = false → Q v1)) :
    ∀ (fuel : Nat) (v : zbc_report_vars σ), I v → N - v.nz ≤ fuel →
      ∃ v1, zbc_report_zones_loop tbl d ro N fuel v = zbc_outcome.ok v1 ∧ Q v1 := by
  intro fuel
  induction fuel with
  | zero =>
    intro v hI hf
    have hge : ¬ v.nz < N := by omega
    exact ⟨v, by simp [zbc_report_zones_loop, hge], hexit v hI hge⟩
  | succ n ih =>
    intro v hI hf
    by_cases hlt : v.nz < N
    · obtain ⟨v1, b, hr, ht, hfa⟩ := hround v hI hlt
      cases b with
      | false => exact ⟨v1, by simp [zbc_report_zones_loop, hlt, hr], hfa rfl⟩
      | true =>
        obtain ⟨hI1, hgrow⟩ := ht rfl
        obtain ⟨v2, h2, hQ⟩ := ih v1 hI1 (by omega)
        exact ⟨v2, by simp [zbc_report_zones_loop, hlt, hr, h2], hQ⟩
    · exact ⟨v, by simp [zbc_report_zones_loop, hlt], hexit v hI hlt⟩

/-! ### `zbc_report_zones` with a buffer -/

/-- C5: for a provider that never returns more zones than the capacity asked for,
`zbc_report_zones` with a present buffer of capacity `N` returns, and when it returns 0 the
updated count is the sum of the counts of the provider calls made, it is the number of zones
written, the buffer holds those zones in the order returned at indices `0 .. count-1` with
the slots after them untouched, and the count is at most `N`. -/
theorem zbc_report_zones_count_is_written {σ : Type} (fuel : Nat)
    (tbl : zbc_ops_id → zbc_ops σ) (d : zbc_device) (id : zbc_ops_id)
    (hops : d.zbd_ops = some id) (hcap : zbc_report_within_capacity (tbl id))
    (start_lba ro N : Nat) (buf : List zbc_zone) (w : σ)
    (hN : N < UINT_MOD) (hbuf : buf.length = N) (hfuel : N ≤ fuel) :
    ∃ r, zbc_report_zones fuel tbl (some d) start_lba ro (some buf) (some N) w
        = zbc_outcome.ok r ∧
      (r.ret = 0 →
        ∃ count, r.nr_zones = some count ∧
          count = (r.calls.map zbc_call.reply_nr_zones).sum ∧
          (r.calls.map zbc_call.reply_zones).flatten.length = count ∧
          r.zones = some ((r.calls.map zbc_call.reply_zones).flatten ++ buf.drop count) ∧
          count ≤ N) := by
  let I : zbc_report_vars σ → Prop := fun v =>
    v.ret = 0 ∧ v.z = v.nz ∧ v.nz ≤ N ∧ v.zones.length = N ∧
      v.nz = (v.calls.map zbc_call.reply_nr_zones).sum ∧
      (v.calls.map zbc_call.reply_zones).flatten.length = v.nz ∧
      v.zones = (v.calls.map zbc_call.reply_zones).flatten ++ buf.drop v.nz
  let Q : zbc_report_vars σ → Prop := fun v => v.ret = 0 → I v
  have hrule := zbc_report_zones_loop_rule tbl d ro N I Q (fun v hI _ _ => hI) (by
    intro v hI hlt
    obtain ⟨hret0, hz, hle, hlen, hsum, hflat, hzones⟩ := hI
    obtain ⟨hfit, hcnt⟩ := hcap d v.start_lba ro (N - v.nz) v.world
    by_cases hret : ((tbl id).zbd_report_zones d v.start_lba ro true (N - v.nz) v.world).1.ret = 0
    · have hcnt1 := hcnt hret
      by_cases hzero :
          ((tbl id).zbd_report_zones d v.start_lba ro true (N - v.nz) v.world).1.nr_zones = 0
      · have hnil : ((tbl id).zbd_report_zones d v.start_lba ro true (N - v.nz) v.world).1.zones
            = [] := List.length_eq_zero.mp (by omega)
        refine ⟨_, false, zbc_report_zones_round_zero tbl d id hops ro N hN v hz hlt hret hzero
          hnil, (fun h => by cases h), fun _ _ => ?_⟩
        refine ⟨rfl, hz, hle, hlen, ?_, ?_, ?_⟩
        · simp [zbc_call.reply_nr_zones, hzero, ← hsum]
        · simp [zbc_call.reply_zones, hnil, hflat]
        · simp [zbc_call.reply_zones, hnil, ← hzones]
      · obtain ⟨last, _, hround⟩ := zbc_report_zones_round_more tbl d id hops ro N hN v hz hlen
          hlt hfit hret hcnt1 hzero
        refine ⟨_, true, hround, fun _ => ⟨⟨rfl, rfl, ?_, ?_, ?_, ?_, ?_⟩, ?_⟩, (fun h => by cases h)⟩
        · show v.nz + _ ≤ N
          omega
        · show List.length _ = N
          rw [zbc_store_zones_length _ _ _ (by omega), hlen]
        · show v.nz + _ = _
          simp [zbc_call.reply_nr_zones, ← hsum, hcnt1]
        · show _ = v.nz + _
          simp [zbc_call.reply_zones, hflat]
        · show _ ++ _ ++ _ = _
          have ht : List.take v.nz v.zones = (v.calls.map zbc_call.reply_zones).flatten := by
            rw [hzones, ← hflat, List.take_left]
          have hd : ∀ k, List.drop (v.nz + k) v.zones = List.drop (v.nz + k) buf := by
            intro k
            rw [hzones, ← hflat, ← List.drop_drop, List.drop_left, hflat, List.drop_drop]
          rw [ht, hd]
          simp [zbc_call.reply_zones]
        · show v.nz < v.nz + _
          omega
    · refine ⟨_, false, zbc_report_zones_round_fail tbl d id hops ro N hN v hz hlen hfit hlt
        hret, (fun h => by cases h), fun _ h0 => absurd h0 hret⟩)
  obtain ⟨v1, hloop, hQ⟩ := hrule fuel
    { ret := 0, start_lba := start_lba, z := 0, nz := 0, zones := buf, world := w, calls := [] }
    ⟨rfl, rfl, Nat.zero_le _, hbuf, by simp, by simp, by simp⟩ (by simpa using hfuel)
  refine ⟨{ ret := v1.ret, nr_zones := some (if v1.ret = 0 then v1.nz else N),
            zones := some v1.zones, world := v1.world, calls := v1.calls },
    by simp only [zbc_report_zones, hloop], ?_⟩
  intro hret
  obtain ⟨_, _, hle, _, hsum, hflat, hzones⟩ := hQ hret
  have hret1 : v1.ret = 0 := hret
  exact ⟨v1.nz, by simp [hret1], hsum, hflat, by simp [hzones], hle⟩

/-- A call that breaks a run of calls with return value 0 is the last of the list. -/
theorem zbc_call_nonzero_is_last (l pre post : List zbc_call) (c : zbc_call)
    (hall : ∀ x ∈ l.dropLast, x.ret = 0) (hsplit : l = pre ++ c :: post) (hc : c.ret ≠ 0) :
    post = [] ∧ l.getLast? = some c := by
  have hpost : post = [] := by
    by_contra hne
    have hmem : c ∈ l.dropLast := by
      rw [hsplit, List.dropLast_append_of_ne_nil _ (by simp),
        List.dropLast_cons_of_ne_nil hne]
      simp
    exact hc (hall c hmem)
  subst hpost
  exact ⟨rfl, by rw [hsplit]; simp⟩

/-- What a round that ends leaves, whatever the provider does: one more call in the list, its
return value in `ret`, and that value is 0 when the loop goes on. -/
theorem zbc_report_zones_round_calls {σ : Type} (tbl : zbc_ops_id → zbc_ops σ) (d : zbc_device)
    (ro N : Nat) (v v1 : zbc_report_vars σ) (b : Bool)
    (h : zbc_report_zones_round tbl d ro N v = zbc_outcome.ok (v1, b)) :
    ∃ c, v1.calls = v.calls ++ [c] ∧ v1.ret = c.ret ∧ (b = true → c.ret = 0) := by
  unfold zbc_report_zones_round zbc_do_report_zones at h
  split at h
  · rename_i r w c hcall
    split at hcall
    · cases hcall
    · rename_i id _
      simp only [zbc_outcome.ok.injEq, Prod.mk.injEq] at hcall
      obtain ⟨hr, _, hc⟩ := hcall
      have hcr : c.ret = r.ret := by rw [← hc, ← hr]; rfl
      split at h
      · cases h
      · split at h
        · simp only [zbc_outcome.ok.injEq, Prod.mk.injEq] at h
          obtain ⟨hv, hb⟩ := h
          exact ⟨c, by rw [← hv], by rw [← hv, hcr], fun hb1 => by rw [← hb] at hb1; cases hb1⟩
        · rename_i hret
          split at h
          · simp only [zbc_outcome.ok.injEq, Prod.mk.injEq] at h
            obtain ⟨hv, hb⟩ := h
            exact ⟨c, by rw [← hv], by rw [← hv, hcr],
              fun hb1 => by rw [← hb] at hb1; cases hb1⟩
          · dsimp only at h
            split at h
            · cases h
            · simp only [zbc_outcome.ok.injEq, Prod.mk.injEq] at h
              obtain ⟨hv, _⟩ := h
              exact ⟨c, by rw [← hv], by rw [← hv, hcr],
                fun _ => by rw [hcr]; exact not_not.mp hret⟩
  · cases h
  · cases h

/-- The loop rule for runs that end: an invariant `I` kept by every round that goes on and a
postcondition `Q` reached at every exit hold of every run that ends, whatever the provider. -/
theorem zbc_report_zones_loop_ends {σ : Type} (tbl : zbc_ops_id → zbc_ops σ) (d : zbc_device)
    (ro N : Nat) (I Q : zbc_report_vars σ → Prop)
    (hexit : ∀ v, I v → ¬ v.nz < N → Q v)
    (hround : ∀ v v1 b, I v → v.nz < N →
      zbc_report_zones_round tbl d ro N v = zbc_outcome.ok (v1, b) →
        (b = true → I v1) ∧ (b = false → Q v1)) :
    ∀ (fuel : Nat) (v v1 : zbc_report_vars σ), I v →
      zbc_report_zones_loop tbl d ro N fuel v = zbc_outcome.ok v1 → Q v1 := by
  intro fuel
  induction fuel with
  | zero =>
    intro v v1 hI h
    by_cases hlt : v.nz < N
    · simp [zbc_report_zones_loop, hlt] at h
    · simp only [zbc_report_zones_loop, hlt, if_false, zbc_outcome.ok.injEq] at h
      rw [← h]
      exact hexit v hI hlt
  | succ n ih =>
    intro v v1 hI h
    by_cases hlt : v.nz < N
    · simp only [zbc_report_zones_loop, hlt, if_true] at h
      split at h
      · rename_i v2 hr
        exact ih v2 v1 ((hround v v2 true hI hlt hr).1 rfl) h
      · rename_i v2 hr
        simp only [zbc_outcome.ok.injEq] at h
        rw [← h]
        exact (hround v v2 false hI hlt hr).2 rfl
      · cases h
      · cases h
    · simp only [zbc_report_zones_loop, hlt, if_false, zbc_outcome.ok.injEq] at h
      rw [← h]
      exact hexit v hI hlt

/-- For a provider that never returns more zones than the capacity asked for,
`zbc_report_zones` with a present buffer of capacity `N` returns within `N` rounds. -/
theorem zbc_report_zones_returns {σ : Type} (fuel : Nat)
    (tbl : zbc_ops_id → zbc_ops σ) (d : zbc_device) (id : zbc_ops_id)
    (hops : d.zbd_ops = some id) (hcap : zbc_report_within_capacity (tbl id))
    (start_lba ro N : Nat) (buf : List zbc_zone) (w : σ)
    (hN : N < UINT_MOD) (hbuf : buf.length = N) (hfuel : N ≤ fuel) :
    ∃ r, zbc_report_zones fuel tbl (some d) start_lba ro (some buf) (some N) w
        = zbc_outcome.ok r := by
  let I : zbc_report_vars σ → Prop := fun v => v.z = v.nz ∧ v.zones.length = N
  have hrule := zbc_report_zones_loop_rule tbl d ro N I (fun _ => True)
    (fun _ _ _ => trivial) (by
    intro v hI hlt
    obtain ⟨hz, hlen⟩ := hI
    obtain ⟨hfit, hcnt⟩ := hcap d v.start_lba ro (N - v.nz) v.world
    by_cases hret : ((tbl id).zbd_report_zones d v.start_lba ro true (N - v.nz) v.world).1.ret = 0
    · have hcnt1 := hcnt hret
      by_cases hzero :
          ((tbl id).zbd_report_zones d v.start_lba ro true (N - v.nz) v.world).1.nr_zones = 0
      · have hnil : ((tbl id).zbd_report_zones d v.start_lba ro true (N - v.nz) v.world).1.zones
            = [] := List.length_eq_zero.mp (by omega)
        exact ⟨_, false, zbc_report_zones_round_zero tbl d id hops ro N hN v hz hlt hret hzero
          hnil, (fun h => by cases h), fun _ => trivial⟩
      · obtain ⟨last, _, hround⟩ := zbc_report_zones_round_more tbl d id hops ro N hN v hz hlen
          hlt hfit hret hcnt1 hzero
        refine ⟨_, true, hround, fun _ => ⟨⟨rfl, ?_⟩, ?_⟩, (fun h => by cases h)⟩
        · show List.length _ = N
          rw [zbc_store_zones_length _ _ _ (by omega), hlen]
        · show v.nz < v.nz + _
          omega
    · exact ⟨_, false, zbc_report_zones_round_fail tbl d id hops ro N hN v hz hlen hfit hlt
        hret, (fun h => by cases h), fun _ => trivial⟩)
  obtain ⟨v1, hloop, _⟩ := hrule fuel
    { ret := 0, start_lba := start_lba, z := 0, nz := 0, zones := buf, world := w, calls := [] }
    ⟨rfl, hbuf⟩ (by simpa using hfuel)
  exact ⟨{ ret := v1.ret, nr_zones := some (if v1.ret = 0 then v1.nz else N),
           zones := some v1.zones, world := v1.world, calls := v1.calls },
    by simp only [zbc_report_zones, hloop]⟩

/-- C7: whatever the provider does, in every run of `zbc_report_zones` with a present buffer
and `*nr_zones = N` that returns, a provider report call that returned a non-zero error is
the last call made, `zbc_report_zones` returns exactly that error, and `*nr_zones` still
holds `N`.  And the run does return when the provider never returns more zones than the
capacity asked for. -/
theorem zbc_report_zones_error_stops {σ : Type} (fuel : Nat)
    (tbl : zbc_ops_id → zbc_ops σ) (d : zbc_device) (start_lba ro N : Nat)
    (buf : List zbc_zone) (w : σ) :
    (∀ r, zbc_report_zones fuel tbl (some d) start_lba ro (some buf) (some N) w
        = zbc_outcome.ok r →
      ∀ pre c post, r.calls = pre ++ c :: post → c.ret ≠ 0 →
        post = [] ∧ r.ret = c.ret ∧ r.nr_zones = some N) ∧
    (∀ id, d.zbd_ops = some id → zbc_report_within_capacity (tbl id) → N < UINT_MOD →
      buf.length = N → N ≤ fuel →
      ∃ r, zbc_report_zones fuel tbl (some d) start_lba ro (some buf) (some N) w
        = zbc_outcome.ok r) := by
  refine ⟨?_, fun id hops hcap hN hbuf hfuel =>
    zbc_report_zones_returns fuel tbl d id hops hcap start_lba ro N buf w hN hbuf hfuel⟩
  intro r hrun pre c post hsplit hc
  let I : zbc_report_vars σ → Prop := fun v => v.ret = 0 ∧ ∀ c ∈ v.calls, c.ret = 0
  let Q : zbc_report_vars σ → Prop := fun v =>
    (∀ c ∈ v.calls.dropLast, c.ret = 0) ∧
      ∀ c, v.calls.getLast? = some c → c.ret ≠ 0 → v.ret = c.ret
  have hrule := zbc_report_zones_loop_ends tbl d ro N I Q
    (fun v hI _ => ⟨fun c hc => hI.2 c (List.mem_of_mem_dropLast hc),
      fun c hc hne => absurd (hI.2 c (List.mem_of_getLast?_eq_some hc)) hne⟩) (by
    intro v v1 b hI hlt hround
    obtain ⟨c0, hcalls, hret, hgo⟩ := zbc_report_zones_round_calls tbl d ro N v v1 b hround
    refine ⟨fun hb => ⟨by rw [hret]; exact hgo hb, ?_⟩, fun _ => ⟨?_, ?_⟩⟩
    · intro x hx
      rw [hcalls] at hx
      rcases List.mem_append.mp hx with hx | hx
      · exact hI.2 x hx
      · rw [List.mem_singleton.mp hx]
        exact hgo hb
    · intro x hx
      rw [hcalls, List.dropLast_concat] at hx
      exact hI.2 x hx
    · intro x hx _
      rw [hcalls, List.getLast?_concat] at hx
      cases hx
      exact hret)
  unfold zbc_report_zones at hrun
  simp only at hrun
  split at hrun
  · rename_i v1 hloop
    obtain ⟨hQ1, hQ2⟩ := hrule fuel _ v1 ⟨rfl, by simp⟩ hloop
    simp only [zbc_outcome.ok.injEq] at hrun
    rw [← hrun] at hsplit ⊢
    obtain ⟨hpost, hlast⟩ := zbc_call_nonzero_is_last v1.calls pre post c hQ1 hsplit hc
    have hv : v1.ret = c.ret := hQ2 c hlast hc
    have hne : v1.ret ≠ 0 := by rw [hv]; exact hc
    exact ⟨hpost, hv, by simp [hne]⟩
  · cases hrun
  · cases hrun

/-! ### Zone layouts -/

theorem zbc_layout_chain_cons (s : Nat) (z : zbc_zone) (rest : List zbc_zone) :
    zbc_layout_chain s (z :: rest) = true ↔
      z.zbz_start = s ∧ 0 < z.zbz_length ∧
        zbc_layout_chain (z.zbz_start + z.zbz_length) rest = true := by
  constructor
  · intro h
    simp only [zbc_layout_chain, Bool.and_eq_true, decide_eq_true_eq] at h
    obtain ⟨⟨h1, h2⟩, h3⟩ := h
    exact ⟨h1, h2, by rw [h1]; exact h3⟩
  · rintro ⟨h1, h2, h3⟩
    simp only [zbc_layout_chain, Bool.and_eq_true, decide_eq_true_eq]
    exact ⟨⟨h1, h2⟩, by rw [← h1]; exact h3⟩

theorem zbc_layout_from_cons (z : zbc_zone) (rest : List zbc_zone) (c : Nat) :
    zbc_layout_from (z :: rest) c
      = if z.zbz_start < c then zbc_layout_from rest c else z :: rest := by
  simp [zbc_layout_from, List.dropWhile_cons]

theorem zbc_layout_end_ge (L : List zbc_zone) :
    ∀ s, zbc_layout_chain s L = true → s ≤ zbc_layout_end s L := by
  induction L with
  | nil => intro s _; exact Nat.le_refl _
  | cons z rest ih =>
    intro s h
    obtain ⟨h1, _, h3⟩ := (zbc_layout_chain_cons s z rest).mp h
    have := ih _ h3
    simp only [zbc_layout_end]
    omega

theorem zbc_layout_chain_take (L : List zbc_zone) :
    ∀ s i, zbc_layout_chain s L = true → zbc_layout_chain s (L.take i) = true := by
  induction L with
  | nil => intro s i h; simpa using h
  | cons z rest ih =>
    intro s i h
    cases i with
    | zero => simp [zbc_layout_chain]
    | succ i =>
      obtain ⟨h1, h2, h3⟩ := (zbc_layout_chain_cons s z rest).mp h
      rw [List.take_succ_cons]
      exact (zbc_layout_chain_cons s z _).mpr ⟨h1, h2, ih _ i h3⟩

theorem zbc_layout_end_take_le (L : List zbc_zone) :
    ∀ s i, zbc_layout_chain s L = true →
      zbc_layout_end s (L.take i) ≤ zbc_layout_end s L := by
  induction L with
  | nil => intro s i _; simp
  | cons z rest ih =>
    intro s i h
    obtain ⟨h1, _, h3⟩ := (zbc_layout_chain_cons s z rest).mp h
    cases i with
    | zero =>
      have := zbc_layout_end_ge rest _ h3
      simp only [List.take_zero, zbc_layout_end]
      omega
    | succ i =>
      rw [List.take_succ_cons]
      simp only [zbc_layout_end]
      exact ih _ i h3

theorem zbc_layout_last_end (L : List zbc_zone) :
    ∀ s last, zbc_layout_chain s L = true → L.getLast? = some last →
      last.zbz_start + last.zbz_length = zbc_layout_end s L := by
  induction L with
  | nil => intro s last _ h; simp at h
  | cons z rest ih =>
    intro s last h hl
    obtain ⟨_, _, h3⟩ := (zbc_layout_chain_cons s z rest).mp h
    cases rest with
    | nil =>
      simp only [List.getLast?_singleton, Option.some.injEq] at hl
      subst hl
      simp [zbc_layout_end]
    | cons y ys =>
      rw [List.getLast?_cons_cons] at hl
      simp only [zbc_layout_end]
      exact ih _ last h3 hl

/-- A report from the end of the first `i` zones of a contiguous layout covers the rest. -/
theorem zbc_layout_from_end (L : List zbc_zone) :
    ∀ s i, zbc_layout_chain s L = true → i ≤ L.length →
      zbc_layout_from L (zbc_layout_end s (L.take i)) = L.drop i := by
  induction L with
  | nil => intro s i _ _; simp [zbc_layout_from]
  | cons z rest ih =>
    intro s i h hi
    obtain ⟨h1, h2, h3⟩ := (zbc_layout_chain_cons s z rest).mp h
    cases i with
    | zero =>
      simp only [List.take_zero, zbc_layout_end, List.drop_zero]
      rw [zbc_layout_from_cons, if_neg (by omega)]
    | succ i =>
      have hge := zbc_layout_end_ge _ _ (zbc_layout_chain_take rest _ i h3)
      rw [List.take_succ_cons, List.drop_succ_cons]
      simp only [zbc_layout_end]
      rw [zbc_layout_from_cons, if_pos (by omega)]
      exact ih _ i h3 (by simpa using hi)

/-- Whatever the start LBA, a report covers the layout from some zone index on. -/
theorem zbc_layout_from_is_drop (L : List zbc_zone) (c : Nat) :
    ∃ i, i ≤ L.length ∧ zbc_layout_from L c = L.drop i := by
  induction L with
  | nil => exact ⟨0, Nat.le_refl _, by simp [zbc_layout_from]⟩
  | cons z rest ih =>
    obtain ⟨i, hi, h⟩ := ih
    by_cases hz : z.zbz_start < c
    · exact ⟨i + 1, by simpa using hi, by rw [zbc_layout_from_cons, if_pos hz, h]; rfl⟩
    · exact ⟨0, Nat.zero_le _, by rw [zbc_layout_from_cons, if_neg hz]; rfl⟩

/-- The starts of a contiguous layout with positive lengths are not below its first LBA. -/
theorem zbc_layout_chain_start_ge (L : List zbc_zone) :
    ∀ s, zbc_layout_chain s L = true → ∀ z ∈ L, s ≤ z.zbz_start := by
  induction L with
  | nil => intro s _ z hz; simp at hz
  | cons y rest ih =>
    intro s h z hz
    obtain ⟨h1, _, h3⟩ := (zbc_layout_chain_cons s y rest).mp h
    rcases List.mem_cons.mp hz with hz | hz
    · rw [hz, h1]
    · have := ih _ h3 z hz
      omega

/-- A contiguous layout with positive lengths is strictly ascending by start LBA. -/
theorem zbc_layout_chain_ascending (L : List zbc_zone) :
    ∀ s, zbc_layout_chain s L = true →
      List.Pairwise (fun a b => a.zbz_start < b.zbz_start) L := by
  induction L with
  | nil => intro s _; exact List.Pairwise.nil
  | cons y rest ih =>
    intro s h
    obtain ⟨_, h2, h3⟩ := (zbc_layout_chain_cons s y rest).mp h
    refine List.Pairwise.cons ?_ (ih _ h3)
    intro z hz
    have := zbc_layout_chain_start_ge rest _ h3 z hz
    omega

/-! ### `zbc_report_zones` on a provider that serves a layout -/

theorem zbc_take_append_drop_step (A zs buf : List zbc_zone) (nz : Nat) (hA : A.length = nz) :
    List.take nz (A ++ buf.drop nz) ++ zs ++ List.drop (nz + zs.length) (A ++ buf.drop nz)
      = A ++ zs ++ buf.drop (nz + zs.length) := by
  have ht : List.take nz (A ++ buf.drop nz) = A := by rw [← hA, List.take_left]
  have hd : List.drop (nz + zs.length) (A ++ buf.drop nz) = buf.drop (nz + zs.length) := by
    rw [← List.drop_drop, ← hA, List.drop_left, hA, List.drop_drop]
  rw [ht, hd]

/-- On a provider that serves the contiguous layout `L`, started at an LBA from which the
report covers `L.drop i0`, `zbc_report_zones` with a buffer of capacity `N` returns 0 with
the first `min N (L.length - i0)` of those zones at the front of the buffer. -/
theorem zbc_report_zones_of_layout {σ : Type} (fuel : Nat) (tbl : zbc_ops_id → zbc_ops σ)
    (d : zbc_device) (id : zbc_ops_id) (hops : d.zbd_ops = some id)
    (L : List zbc_zone) (m : Nat) (hserve : zbc_serves_layout (tbl id) L m) (hm : 1 ≤ m)
    (s : Nat) (hchain : zbc_layout_chain s L = true) (hend : zbc_layout_end s L < U64_MOD)
    (start_lba ro N i0 : Nat) (buf : List zbc_zone) (w : σ)
    (hN : N < UINT_MOD) (hbuf : buf.length = N) (hfuel : N ≤ fuel)
    (hi0 : i0 ≤ L.length) (hfrom : zbc_layout_from L start_lba = L.drop i0) :
    ∃ r, zbc_report_zones fuel tbl (some d) start_lba ro (some buf) (some N) w
        = zbc_outcome.ok r ∧ r.ret = 0 ∧
      r.nr_zones = some (min N (L.length - i0)) ∧
      r.zones = some ((L.drop i0).take (min N (L.length - i0)) ++
        buf.drop (min N (L.length - i0))) := by
  let I : zbc_report_vars σ → Prop := fun v =>
    v.ret = 0 ∧ v.z = v.nz ∧ v.nz ≤ N ∧ v.zones.length = N ∧ i0 + v.nz ≤ L.length ∧
      zbc_layout_from L v.start_lba = L.drop (i0 + v.nz) ∧
      v.zones = (L.drop i0).take v.nz ++ buf.drop v.nz
  let Q : zbc_report_vars σ → Prop := fun v =>
    v.ret = 0 ∧ v.nz = min N (L.length - i0) ∧
      v.zones = (L.drop i0).take v.nz ++ buf.drop v.nz
  have hrule := zbc_report_zones_loop_rule tbl d ro N I Q
    (fun v hI hge => ⟨hI.1, by have := hI.2.2.1; have := hI.2.2.2.2.1; omega, hI.2.2.2.2.2.2⟩) (by
    intro v hI hlt
    obtain ⟨hret0, hz, hle, hlen, hj, hcur, hzones⟩ := hI
    have hrep := (hserve d v.start_lba ro (N - v.nz) v.world).1
    rw [hcur] at hrep
    obtain ⟨zs, hzs⟩ : ∃ zs, zs = (L.drop (i0 + v.nz)).take (min (N - v.nz) m) := ⟨_, rfl⟩
    rw [← hzs] at hrep
    have hzlen : zs.length = min (min (N - v.nz) m) (L.length - (i0 + v.nz)) := by
      rw [hzs, List.length_take, List.length_drop]
    have hA : ((L.drop i0).take v.nz).length = v.nz := by
      rw [List.length_take, List.length_drop]
      omega
    have hret : ((tbl id).zbd_report_zones d v.start_lba ro true (N - v.nz) v.world).1.ret = 0 := by
      rw [hrep]
    have hcnt : ((tbl id).zbd_report_zones d v.start_lba ro true (N - v.nz) v.world).1.nr_zones
        = ((tbl id).zbd_report_zones d v.start_lba ro true (N - v.nz) v.world).1.zones.length := by
      rw [hrep]
    have hfit : ((tbl id).zbd_report_zones d v.start_lba ro true (N - v.nz) v.world).1.zones.length
        ≤ N - v.nz := by
      rw [hrep]
      show zs.length ≤ N - v.nz
      omega
    by_cases hzero : zs.length = 0
    · have hcnt0 : ((tbl id).zbd_report_zones d v.start_lba ro true (N - v.nz) v.world).1.nr_zones
          = 0 := by
        rw [hrep]
        exact hzero
      have hnil : ((tbl id).zbd_report_zones d v.start_lba ro true (N - v.nz) v.world).1.zones
          = [] := by
        rw [hrep]
        exact List.length_eq_zero.mp hzero
      refine ⟨_, false, zbc_report_zones_round_zero tbl d id hops ro N hN v hz hlt hret hcnt0
        hnil, (fun h => by cases h), fun _ => ⟨rfl, ?_, hzones⟩⟩
      show v.nz = min N (L.length - i0)
      omega
    · have hcntpos :
          ((tbl id).zbd_report_zones d v.start_lba ro true (N - v.nz) v.world).1.nr_zones ≠ 0 := by
        rw [hrep]
        exact hzero
      obtain ⟨last, hlast, hround⟩ := zbc_report_zones_round_more tbl d id hops ro N hN v hz hlen
        hlt hfit hret hcnt hcntpos
      simp only [hrep] at hround hlast
      have hzs2 : (L.drop (i0 + v.nz)).take zs.length = zs := by
        rw [hzs, List.take_eq_take]
        rw [List.length_take, List.length_drop]
        omega
      have htake : L.take (i0 + v.nz + zs.length) = L.take (i0 + v.nz) ++ zs := by
        rw [List.take_add, hzs2]
      have hne : zs ≠ [] := fun h => hzero (by rw [h]; rfl)
      have hl2 : (L.take (i0 + v.nz + zs.length)).getLast? = some last := by
        rw [htake, List.getLast?_append_of_ne_nil _ hne, hlast]
      have he := zbc_layout_last_end _ s last
        (zbc_layout_chain_take L s (i0 + v.nz + zs.length) hchain) hl2
      have hle2 := zbc_layout_end_take_le L s (i0 + v.nz + zs.length) hchain
      have hmod : (last.zbz_start + last.zbz_length) % U64_MOD
          = zbc_layout_end s (L.take (i0 + v.nz + zs.length)) := by
        rw [he]
        exact Nat.mod_eq_of_lt (by omega)
      refine ⟨_, true, hround, fun _ => ⟨⟨rfl, rfl, ?_, ?_, ?_, ?_, ?_⟩, ?_⟩,
        (fun h => by cases h)⟩
      · show v.nz + zs.length ≤ N
        omega
      · show List.length _ = N
        rw [zbc_store_zones_length _ _ _ (by omega), hlen]
      · show i0 + (v.nz + zs.length) ≤ L.length
        omega
      · show zbc_layout_from L ((last.zbz_start + last.zbz_length) % U64_MOD)
          = L.drop (i0 + (v.nz + zs.length))
        rw [hmod, zbc_layout_from_end L s _ hchain (by omega), Nat.add_assoc]
      · show v.zones.take v.nz ++ zs ++ v.zones.drop (v.nz + zs.length)
          = (L.drop i0).take (v.nz + zs.length) ++ buf.drop (v.nz + zs.length)
        rw [hzones, zbc_take_append_drop_step _ zs buf v.nz hA, List.take_add, List.drop_drop,
          hzs2]
      · show v.nz < v.nz + zs.length
        omega)
  obtain ⟨v1, hloop, hQ1, hQ2, hQ3⟩ := hrule fuel
    { ret := 0, start_lba := start_lba, z := 0, nz := 0, zones := buf, world := w, calls := [] }
    ⟨rfl, rfl, Nat.zero_le _, hbuf, by simpa using hi0, by simpa using hfrom, by simp⟩
    (by simpa using hfuel)
  have hret1 : v1.ret = 0 := hQ1
  refine ⟨{ ret := v1.ret, nr_zones := some (if v1.ret = 0 then v1.nz else N),
            zones := some v1.zones, world := v1.world, calls := v1.calls },
    by simp only [zbc_report_zones, hloop], hQ1, ?_, ?_⟩
  · simp [hret1, hQ2]
  · show some v1.zones = _
    rw [hQ3, hQ2]

/-! ### `zbc_list_zones` -/

/-- A report from LBA 0 covers a whole layout that is contiguous from LBA 0. -/
theorem zbc_layout_from_zero (L : List zbc_zone) (h : zbc_layout_chain 0 L = true) :
    zbc_layout_from L 0 = L := by
  have := zbc_layout_from_end L 0 0 h (Nat.zero_le _)
  simpa [zbc_layout_end] using this

/-- C8: on a provider that serves a well-formed layout `L` (contiguous from LBA 0, positive
lengths, ending at the device capacity) with any per-command bound `m ≥ 1`, `zbc_list_zones`
from LBA 0 with a succeeding allocation returns 0 and exactly the layout: the returned count
is the count-only count, and the returned zones ascend by start LBA, are contiguous from 0
and end at the device capacity. -/
theorem zbc_list_zones_is_layout {σ : Type} (fuel : Nat) (tbl : zbc_ops_id → zbc_ops σ)
    (malloc : Nat → Bool) (nr_zones0 : Nat) (d : zbc_device) (id : zbc_ops_id)
    (hops : d.zbd_ops = some id) (L : List zbc_zone) (m : Nat)
    (hserve : zbc_serves_layout (tbl id) L m) (hm : 1 ≤ m)
    (hchain : zbc_layout_chain 0 L = true)
    (hend : zbc_layout_end 0 L = d.zbd_info.zbd_logical_blocks)
    (hcapa : d.zbd_info.zbd_logical_blocks < U64_MOD) (hT : L.length < UINT_MOD)
    (hmalloc : malloc L.length = true) (ro : Nat) (pz : Option (List zbc_zone)) (pn : Nat)
    (w : σ) (hfuel : L.length ≤ fuel) :
    ∃ r rc, zbc_list_zones fuel tbl malloc nr_zones0 (some d) 0 ro (some pz) (some pn) w
        = zbc_outcome.ok r ∧
      zbc_report_nr_zones fuel tbl (some d) 0 ro (some nr_zones0) w = zbc_outcome.ok rc ∧
      r.ret = 0 ∧ r.pzones = some (some L) ∧ r.pnr_zones = some L.length ∧
      r.pnr_zones = rc.nr_zones ∧
      ∀ zs, r.pzones = some (some zs) →
        List.Pairwise (fun a b => a.zbz_start < b.zbz_start) zs ∧
        zbc_layout_chain 0 zs = true ∧
        zbc_layout_end 0 zs = d.zbd_info.zbd_logical_blocks := by
  have hfrom0 := zbc_layout_from_zero L hchain
  have hcnt := (hserve d 0 ro nr_zones0 w).2
  rw [hfrom0] at hcnt
  have h1 := zbc_report_zones_null_buffer fuel tbl d id hops 0 ro nr_zones0 w
  rw [hcnt] at h1
  obtain ⟨r2, h2, hr2ret, hr2n, hr2z⟩ := zbc_report_zones_of_layout fuel tbl d id hops L m
    hserve hm 0 hchain (by omega) 0 ro L.length 0 (List.replicate L.length zbc_zone_zero)
    ((tbl id).zbd_report_zones d 0 ro false nr_zones0 w).2 hT (by simp) hfuel (Nat.zero_le _)
    (by simpa using hfrom0)
  have hr2n1 : r2.nr_zones = some L.length := by simpa using hr2n
  have hr2z1 : r2.zones = some L := by simpa using hr2z
  refine ⟨{ ret := r2.ret, pzones := some r2.zones, pnr_zones := r2.nr_zones,
            world := r2.world,
            calls := [zbc_call.zbd_report_zones id d 0 ro false nr_zones0
              { ret := 0, nr_zones := L.length, zones := [] }] ++ r2.calls }, _, ?_, h1,
    hr2ret, by rw [hr2z1], hr2n1, hr2n1, ?_⟩
  · simp [zbc_list_zones, zbc_report_nr_zones, h1, hmalloc, h2, hr2ret]
  · intro zs hzs
    have e : zs = L := by
      rw [hr2z1] at hzs
      simpa using hzs.symm
    subst e
    exact ⟨zbc_layout_chain_ascending _ 0 hchain, hchain, hend⟩

/-! ### Caller-driven pagination -/

/-- After a non-empty page of a contiguous layout, the end of the page's last zone is an LBA
from which a report covers the zones after the page. -/
theorem zbc_layout_next_cursor (L : List zbc_zone) (s j len : Nat) (last : zbc_zone)
    (hchain : zbc_layout_chain s L = true) (hend : zbc_layout_end s L < U64_MOD)
    (hj : j + len ≤ L.length)
    (hlast : ((L.drop j).take len).getLast? = some last) :
    zbc_layout_from L ((last.zbz_start + last.zbz_length) % U64_MOD) = L.drop (j + len) := by
  have hne : (L.drop j).take len ≠ [] := by
    intro h
    rw [h] at hlast
    simp at hlast
  have hl2 : (L.take (j + len)).getLast? = some last := by
    rw [List.take_add, List.getLast?_append_of_ne_nil _ hne, hlast]
  have he := zbc_layout_last_end _ s last (zbc_layout_chain_take L s (j + len) hchain) hl2
  have hle := zbc_layout_end_take_le L s (j + len) hchain
  rw [he, Nat.mod_eq_of_lt (by omega), zbc_layout_from_end L s _ hchain hj]

/-- Caller-driven pagination over a provider that serves a contiguous layout collects the
zones the layout has from the first start LBA on. -/
theorem zbc_caller_pagination_of_layout {σ : Type} (fuel : Nat)
    (tbl : zbc_ops_id → zbc_ops σ) (d : zbc_device) (id : zbc_ops_id)
    (hops : d.zbd_ops = some id) (L : List zbc_zone) (m : Nat)
    (hserve : zbc_serves_layout (tbl id) L m) (hm : 1 ≤ m)
    (s : Nat) (hchain : zbc_layout_chain s L = true) (hend : zbc_layout_end s L < U64_MOD)
    (ro k want i0 : Nat) (hk : 1 ≤ k) (hk2 : k < UINT_MOD) (hfuel : k ≤ fuel)
    (hwant : L.length - i0 ≤ want) :
    ∀ (pages c : Nat) (acc : List zbc_zone) (w : σ) (j : Nat), i0 ≤ j → j ≤ L.length →
      zbc_layout_from L c = L.drop j → acc = (L.drop i0).take (j - i0) →
      L.length - j < pages →
      ∃ p, zbc_caller_pagination fuel tbl d ro k want pages c acc w = zbc_outcome.ok p ∧
        p.ret = 0 ∧ p.zones = L.drop i0 := by
  intro pages
  induction pages with
  | zero => intro c acc w j _ _ _ _ hp; omega
  | succ n ih =>
    intro c acc w j hij hjT hfrom hacc hp
    obtain ⟨r, hr, hret, hn, hz⟩ := zbc_report_zones_of_layout fuel tbl d id hops L m hserve hm
      s hchain hend c ro k j (List.replicate k zbc_zone_zero) w hk2 (by simp) hfuel hjT hfrom
    have hcnt : r.nr_zones.getD 0 = min k (L.length - j) := by rw [hn]; rfl
    have hplen : ((L.drop j).take (min k (L.length - j))).length = min k (L.length - j) := by
      rw [List.length_take, List.length_drop]
      omega
    have hpage : (r.zones.getD []).take (min k (L.length - j))
        = (L.drop j).take (min k (L.length - j)) := by
      rw [hz]
      exact List.take_left' hplen
    have hacclen : acc.length = j - i0 := by
      rw [hacc, List.length_take, List.length_drop]
      omega
    have hjoin : ∀ len, acc ++ (L.drop j).take len = (L.drop i0).take (j - i0 + len) := by
      intro len
      rw [hacc, List.take_add, List.drop_drop]
      congr 3
      omega
    rw [zbc_caller_pagination]
    simp only [hr, hret, hcnt, hpage]
    have e0 : ¬ ((0 : Int) ≠ 0) := by simp
    rw [if_neg e0]
    by_cases h0 : min k (L.length - j) = 0
    · refine ⟨{ ret := 0, zones := acc, world := r.world }, by rw [if_pos h0], rfl, ?_⟩
      show acc = L.drop i0
      rw [hacc]
      exact List.take_of_length_le (by rw [List.length_drop]; omega)
    · by_cases hw : want ≤ (acc ++ (L.drop j).take (min k (L.length - j))).length
      · refine ⟨{ ret := 0, zones := acc ++ (L.drop j).take (min k (L.length - j)),
                  world := r.world }, by rw [if_neg h0, if_pos hw], rfl, ?_⟩
        show acc ++ (L.drop j).take (min k (L.length - j)) = L.drop i0
        rw [List.length_append, hacclen, hplen] at hw
        rw [hjoin]
        exact List.take_of_length_le (by rw [List.length_drop]; omega)
      · cases hgl : ((L.drop j).take (min k (L.length - j))).getLast? with
        | none =>
          rw [List.getLast?_eq_none_iff] at hgl
          rw [hgl] at hplen
          exact absurd hplen.symm h0
        | some last =>
          have hnext := zbc_layout_next_cursor L s j (min k (L.length - j)) last hchain hend
            (by omega) hgl
          obtain ⟨p, hp1, hp2, hp3⟩ := ih ((last.zbz_start + last.zbz_length) % U64_MOD)
            (acc ++ (L.drop j).take (min k (L.length - j))) r.world
            (j + min k (L.length - j)) (by omega) (by omega) hnext
            (by rw [hjoin]; congr 1; omega) (by omega)
          exact ⟨p, by rw [if_neg h0, if_neg hw]; exact hp1, hp2, hp3⟩

/-- C4: on a provider that serves a fixed contiguous layout `L` of `T` zones with positive
lengths, caller-driven pagination with a buffer of capacity `k ≥ 1` from any start LBA, until
a call returns count 0 or the layout is exhausted, collects the same number of zones, with
the same contents in the same order, as one `zbc_report_zones` call with capacity `T` from
the same start LBA. -/
theorem zbc_caller_pagination_eq_one_shot {σ : Type} (fuel pages : Nat)
    (tbl : zbc_ops_id → zbc_ops σ) (d : zbc_device) (id : zbc_ops_id)
    (hops : d.zbd_ops = some id) (L : List zbc_zone) (m : Nat)
    (hserve : zbc_serves_layout (tbl id) L m) (hm : 1 ≤ m)
    (s : Nat) (hchain : zbc_layout_chain s L = true) (hend : zbc_layout_end s L < U64_MOD)
    (hT : L.length < UINT_MOD) (k : Nat) (hk : 1 ≤ k) (hk2 : k < UINT_MOD)
    (want start_lba ro : Nat) (w : σ)
    (hwant : (zbc_layout_from L start_lba).length ≤ want)
    (hfuel : max k L.length ≤ fuel) (hpages : L.length < pages) :
    ∃ p r, zbc_caller_pagination fuel tbl d ro k want pages start_lba [] w
        = zbc_outcome.ok p ∧
      zbc_report_zones fuel tbl (some d) start_lba ro
        (some (List.replicate L.length zbc_zone_zero)) (some L.length) w = zbc_outcome.ok r ∧
      p.ret = 0 ∧ r.ret = 0 ∧ r.nr_zones = some p.zones.length ∧
      (r.zones.getD []).take p.zones.length = p.zones := by
  obtain ⟨i0, hi0, hfrom⟩ := zbc_layout_from_is_drop L start_lba
  rw [hfrom, List.length_drop] at hwant
  obtain ⟨p, hp1, hp2, hp3⟩ := zbc_caller_pagination_of_layout fuel tbl d id hops L m hserve hm
    s hchain hend ro k want i0 hk hk2 (by omega) hwant pages start_lba [] w i0
    (Nat.le_refl _) hi0 hfrom (by simp) (by omega)
  obtain ⟨r, hr, hret, hn, hz⟩ := zbc_report_zones_of_layout fuel tbl d id hops L m hserve hm
    s hchain hend start_lba ro L.length i0 (List.replicate L.length zbc_zone_zero) w hT
    (by simp) (by omega) hi0 hfrom
  have hmin : min L.length (L.length - i0) = L.length - i0 := by omega
  rw [hmin] at hn hz
  have hfull : (L.drop i0).take (L.length - i0) = L.drop i0 :=
    List.take_of_length_le (by rw [List.length_drop])
  refine ⟨p, r, hp1, hr, hp2, hret, ?_, ?_⟩
  · rw [hn, hp3, List.length_drop]
  · rw [hz, hp3, hfull, List.length_drop]
    exact List.take_left' (by rw [List.length_drop])

/-! ### The test provider, and the theorems above on it -/

theorem layout_ops_serves (L : List zbc_zone) (m : Nat) :
    zbc_serves_layout (layout_ops L m none) L m := by
  intro dev start_lba ro n w
  simp [layout_ops]

theorem layout_ops_within_capacity (L : List zbc_zone) (m : Nat) (fail_at : Option Nat) :
    zbc_report_within_capacity (layout_ops L m fail_at) := by
  intro dev start_lba ro n w
  by_cases h : fail_at = some start_lba
  · simp [layout_ops, h]
  · simp only [layout_ops, h, if_false, if_true, List.length_take]
    exact ⟨by omega, fun _ => trivial⟩

/-- Witness of C4: capacity `k = 2` against the 5-zone test layout served 3 zones at a time. -/
theorem zbc_caller_pagination_eq_one_shot_witness :
    ∃ p r, zbc_caller_pagination 5 (layout_tbl layout5 3 none) layout_dev 0 2 5 6 0 [] 0
        = zbc_outcome.ok p ∧
      zbc_report_zones 5 (layout_tbl layout5 3 none) (some layout_dev) 0 0
        (some (List.replicate layout5.length zbc_zone_zero)) (some layout5.length) 0
        = zbc_outcome.ok r ∧
      p.ret = 0 ∧ r.ret = 0 ∧ r.nr_zones = some p.zones.length ∧
      (r.zones.getD []).take p.zones.length = p.zones :=
  zbc_caller_pagination_eq_one_shot 5 6 (layout_tbl layout5 3 none) layout_dev
    zbc_ops_id.zbc_fake_ops rfl layout5 3 (layout_ops_serves layout5 3) (by decide) 0
    (by decide) (by decide) (by decide) 2 (by decide) (by decide) 5 0 0 0 (by decide)
    (by decide) (by decide)

/-- Witness of C5: capacity 5 against the 5-zone test layout served 2 zones at a time. -/
theorem zbc_report_zones_count_is_written_witness :
    ∃ r, zbc_report_zones 5 (layout_tbl layout5 2 none) (some layout_dev) 0 0
        (some (List.replicate 5 zbc_zone_zero)) (some 5) 0 = zbc_outcome.ok r ∧
      (r.ret = 0 →
        ∃ count, r.nr_zones = some count ∧
          count = (r.calls.map zbc_call.reply_nr_zones).sum ∧
          (r.calls.map zbc_call.reply_zones).flatten.length = count ∧
          r.zones = some ((r.calls.map zbc_call.reply_zones).flatten ++
            (List.replicate 5 zbc_zone_zero).drop count) ∧
          count ≤ 5) :=
  zbc_report_zones_count_is_written 5 (layout_tbl layout5 2 none) layout_dev
    zbc_ops_id.zbc_fake_ops rfl (layout_ops_within_capacity layout5 2 none) 0 0 5
    (List.replicate 5 zbc_zone_zero) 0 (by decide) (by decide) (by decide)

/-- Witness of C6: the count-only call on the 5-zone test layout is one provider call that
stores 5. -/
theorem zbc_report_zones_count_only_witness :
    zbc_report_zones 0 (layout_tbl layout5 2 none) (some layout_dev) 0 0 none (some 77) 0
      = zbc_outcome.ok
        { ret := 0, nr_zones := some 5, zones := none, world := 1,
          calls := [zbc_call.zbd_report_zones zbc_ops_id.zbc_fake_ops layout_dev 0 0 false 77
                      { ret := 0, nr_zones := 5, zones := [] }] } :=
  zbc_report_zones_count_only 0 (layout_tbl layout5 2 none) layout_dev zbc_ops_id.zbc_fake_ops
    rfl 0 0 77 0

/-- Witness of C7: the test provider fails the report from LBA 512, the second call of the
pagination with 2 zones per command; two zones are in the buffer and the count is still 5. -/
theorem zbc_report_zones_error_stops_witness :
    zbc_report_zones 5 (layout_tbl layout5 2 (some 512)) (some layout_dev) 0 0
        (some (List.replicate 5 zbc_zone_zero)) (some 5) 0 = zbc_outcome.ok
      { ret := -5, nr_zones := some 5,
        zones := some [layout_zone 0 256, layout_zone 256 256, zbc_zone_zero, zbc_zone_zero,
                       zbc_zone_zero],
        world := 2,
        calls := [zbc_call.zbd_report_zones zbc_ops_id.zbc_fake_ops layout_dev 0 0 true 5
                    { ret := 0, nr_zones := 2,
                      zones := [layout_zone 0 256, layout_zone 256 256] },
                  zbc_call.zbd_report_zones zbc_ops_id.zbc_fake_ops layout_dev 512 0 true 3
                    { ret := -5, nr_zones := 0, zones := [] }] } ∧
    (∃ r, zbc_report_zones 5 (layout_tbl layout5 2 (some 512)) (some layout_dev) 0 0
        (some (List.replicate 5 zbc_zone_zero)) (some 5) 0 = zbc_outcome.ok r ∧
      ∀ pre c post, r.calls = pre ++ c :: post → c.ret ≠ 0 →
        post = [] ∧ r.ret = c.ret ∧ r.nr_zones = some 5) :=
  ⟨by rfl,
   Exists.elim
    ((zbc_report_zones_error_stops 5 (layout_tbl layout5 2 (some 512)) layout_dev 0 0 5
      (List.replicate 5 zbc_zone_zero) 0).2 zbc_ops_id.zbc_fake_ops rfl
      (layout_ops_within_capacity layout5 2 (some 512)) (by decide) (by decide) (by decide))
    (fun r hr => ⟨r, hr,
      (zbc_report_zones_error_stops 5 (layout_tbl layout5 2 (some 512)) layout_dev 0 0 5
        (List.replicate 5 zbc_zone_zero) 0).1 r hr⟩)⟩

/-- Witness of C8: `zbc_list_zones` on the 5-zone test layout served 2 zones at a time. -/
theorem zbc_list_zones_is_layout_witness :
    ∃ r rc, zbc_list_zones 5 (layout_tbl layout5 2 none) (fun _ => true) 77 (some layout_dev)
        0 0 (some none) (some 0) 0 = zbc_outcome.ok r ∧
      zbc_report_nr_zones 5 (layout_tbl layout5 2 none) (some layout_dev) 0 0 (some 77) 0
        = zbc_outcome.ok rc ∧
      r.ret = 0 ∧ r.pzones = some (some layout5) ∧ r.pnr_zones = some layout5.length ∧
      r.pnr_zones = rc.nr_zones ∧
      ∀ zs, r.pzones = some (some zs) →
        List.Pairwise (fun a b => a.zbz_start < b.zbz_start) zs ∧
        zbc_layout_chain 0 zs = true ∧
        zbc_layout_end 0 zs = layout_dev.zbd_info.zbd_logical_blocks :=
  zbc_list_zones_is_layout 5 (layout_tbl layout5 2 none) (fun _ => true) 77 layout_dev
    zbc_ops_id.zbc_fake_ops rfl layout5 2 (layout_ops_serves layout5 2) (by decide) (by decide)
    (by decide) (by decide) (by decide) rfl 0 none 0 0 (by decide)

/-! ### Delegation of transfers, flush and the optional operations -/

/-- In the `int32_t` range the conversion of the return value changes nothing. -/
theorem zbc_int32_of_range (x : Int) (hlo : -(2 ^ 31) ≤ x) (hhi : x < 2 ^ 31) :
    zbc_int32 x = x := by
  unfold zbc_int32
  omega

/-- C11: with handle, zone and buffer present and `lba_count > 0`, `zbc_pread` and `zbc_pwrite`
call the bound provider's operation exactly once with the caller's zone, buffer, count and
offset, and return the provider's result as it is (the result being an `int32_t` value): the
returned value is positive exactly when the provider's result is, a short count is passed
through, and a result of zero or less comes back as that non-positive value. -/
theorem zbc_prw_delegates {σ : Type} (tbl : zbc_ops_id → zbc_ops σ) (d : zbc_device)
    (id : zbc_ops_id) (hops : d.zbd_ops = some id) (zone : zbc_zone)
    (buf lba_count lba_ofst : Nat) (w : σ) (hcount : 0 < lba_count)
    (hrd : -(2 ^ 31) ≤ ((tbl id).zbd_pread d zone buf lba_count lba_ofst w).1 ∧
      ((tbl id).zbd_pread d zone buf lba_count lba_ofst w).1 < 2 ^ 31)
    (hwr : -(2 ^ 31) ≤ ((tbl id).zbd_pwrite d zone buf lba_count lba_ofst w).1 ∧
      ((tbl id).zbd_pwrite d zone buf lba_count lba_ofst w).1 < 2 ^ 31) :
    (∃ r, zbc_pread tbl (some d) (some zone) (some buf) lba_count lba_ofst w
        = zbc_outcome.ok r ∧
      r.ret = ((tbl id).zbd_pread d zone buf lba_count lba_ofst w).1 ∧
      r.world = ((tbl id).zbd_pread d zone buf lba_count lba_ofst w).2 ∧
      r.calls = [zbc_call.zbd_pread id d zone buf lba_count lba_ofst
        ((tbl id).zbd_pread d zone buf lba_count lba_ofst w).1] ∧
      (0 < r.ret ↔ 0 < ((tbl id).zbd_pread d zone buf lba_count lba_ofst w).1) ∧
      (((tbl id).zbd_pread d zone buf lba_count lba_ofst w).1 ≤ 0 → r.ret ≤ 0)) ∧
    (∃ r, zbc_pwrite tbl (some d) (some zone) (some buf) lba_count lba_ofst w
        = zbc_outcome.ok r ∧
      r.ret = ((tbl id).zbd_pwrite d zone buf lba_count lba_ofst w).1 ∧
      r.world = ((tbl id).zbd_pwrite d zone buf lba_count lba_ofst w).2 ∧
      r.calls = [zbc_call.zbd_pwrite id d zone buf lba_count lba_ofst
        ((tbl id).zbd_pwrite d zone buf lba_count lba_ofst w).1] ∧
      (0 < r.ret ↔ 0 < ((tbl id).zbd_pwrite d zone buf lba_count lba_ofst w).1) ∧
      (((tbl id).zbd_pwrite d zone buf lba_count lba_ofst w).1 ≤ 0 → r.ret ≤ 0)) := by
  have hne : lba_count ≠ 0 := by omega
  have e1 := zbc_int32_of_range _ hrd.1 hrd.2
  have e2 := zbc_int32_of_range _ hwr.1 hwr.2
  constructor
  · have h : zbc_pread tbl (some d) (some zone) (some buf) lba_count lba_ofst w
        = zbc_outcome.ok
          { ret := zbc_int32 ((tbl id).zbd_pread d zone buf lba_count lba_ofst w).1,
            world := ((tbl id).zbd_pread d zone buf lba_count lba_ofst w).2,
            calls := [zbc_call.zbd_pread id d zone buf lba_count lba_ofst
              ((tbl id).zbd_pread d zone buf lba_count lba_ofst w).1] } := by
      simp only [zbc_pread, hne, hops, ne_eq, not_false_eq_true, if_true]
    refine ⟨_, h, ?_, rfl, rfl, ?_, ?_⟩
    · exact e1
    · show 0 < zbc_int32 _ ↔ _
      rw [e1]
    · show _ → zbc_int32 _ ≤ 0
      rw [e1]
      exact fun h0 => h0
  · have h : zbc_pwrite tbl (some d) (some zone) (some buf) lba_count lba_ofst w
        = zbc_outcome.ok
          { ret := zbc_int32 ((tbl id).zbd_pwrite d zone buf lba_count lba_ofst w).1,
            world := ((tbl id).zbd_pwrite d zone buf lba_count lba_ofst w).2,
            calls := [zbc_call.zbd_pwrite id d zone buf lba_count lba_ofst
              ((tbl id).zbd_pwrite d zone buf lba_count lba_ofst w).1] } := by
      simp only [zbc_pwrite, hne, hops, ne_eq, not_false_eq_true, if_true]
    refine ⟨_, h, ?_, rfl, rfl, ?_, ?_⟩
    · exact e2
    · show 0 < zbc_int32 _ ↔ _
      rw [e2]
    · show _ → zbc_int32 _ ≤ 0
      rw [e2]
      exact fun h0 => h0

/-- Witness of C11: a transfer of 8 blocks on the test layout provider, which transfers all
of them, so both calls return 8 after one provider call. -/
theorem zbc_prw_delegates_witness :
    (∃ r, zbc_pread (layout_tbl layout5 2 none) (some layout_dev) (some (layout_zone 0 256))
        (some 4096) 8 16 0 = zbc_outcome.ok r ∧
      r.ret = 8 ∧ r.world = 1 ∧
      r.calls = [zbc_call.zbd_pread zbc_ops_id.zbc_fake_ops layout_dev (layout_zone 0 256) 4096
        8 16 8] ∧
      (0 < r.ret ↔ 0 < (8 : Int)) ∧ ((8 : Int) ≤ 0 → r.ret ≤ 0)) ∧
    (∃ r, zbc_pwrite (layout_tbl layout5 2 none) (some layout_dev) (some (layout_zone 0 256))
        (some 4096) 8 16 0 = zbc_outcome.ok r ∧
      r.ret = 8 ∧ r.world = 1 ∧
      r.calls = [zbc_call.zbd_pwrite zbc_ops_id.zbc_fake_ops layout_dev (layout_zone 0 256)
        4096 8 16 8] ∧
      (0 < r.ret ↔ 0 < (8 : Int)) ∧ ((8 : Int) ≤ 0 → r.ret ≤ 0)) :=
  zbc_prw_delegates (layout_tbl layout5 2 none) layout_dev zbc_ops_id.zbc_fake_ops rfl
    (layout_zone 0 256) 4096 8 16 0 (by decide) (by decide) (by decide)

/-- C12: for a handle whose bound provider does not implement `zbd_set_zones` (respectively
`zbd_set_wp`), `zbc_set_zones` (respectively `zbc_set_write_pointer`) returns `-ENXIO` for
all arguments, calls no provider operation and leaves the provider state as it was; when the
provider implements the operation, it is called exactly once with the caller's arguments and
its result is returned unchanged. -/
theorem zbc_set_ops_gated {σ : Type} (tbl : zbc_ops_id → zbc_ops σ) (d : zbc_device)
    (id : zbc_ops_id) (hops : d.zbd_ops = some id) (a b : Nat) (w : σ) :
    ((tbl id).zbd_set_zones = none →
      zbc_set_zones tbl (some d) a b w
        = zbc_outcome.ok { ret := - ENXIO, world := w, calls := [] }) ∧
    ((tbl id).zbd_set_wp = none →
      zbc_set_write_pointer tbl (some d) a b w
        = zbc_outcome.ok { ret := - ENXIO, world := w, calls := [] }) ∧
    (∀ f, (tbl id).zbd_set_zones = some f →
      zbc_set_zones tbl (some d) a b w = zbc_outcome.ok
        { ret := (f d a b w).1, world := (f d a b w).2,
          calls := [zbc_call.zbd_set_zones id d a b (f d a b w).1] }) ∧
    (∀ f, (tbl id).zbd_set_wp = some f →
      zbc_set_write_pointer tbl (some d) a b w = zbc_outcome.ok
        { ret := (f d a b w).1, world := (f d a b w).2,
          calls := [zbc_call.zbd_set_wp id d a b (f d a b w).1] }) := by
  refine ⟨fun h => ?_, fun h => ?_, fun f h => ?_, fun f h => ?_⟩
  · simp [zbc_set_zones, hops, h]
  · simp [zbc_set_write_pointer, hops, h]
  · simp [zbc_set_zones, hops, h]
  · simp [zbc_set_write_pointer, hops, h]

/-- Witness of C12: the test layout provider implements neither operation, the provider
`hacked_ops` implements both. -/
theorem zbc_set_ops_gated_witness :
    zbc_set_zones (layout_tbl layout5 2 none) (some layout_dev) 256 128 0
      = zbc_outcome.ok { ret := -6, world := 0, calls := [] } ∧
    zbc_set_write_pointer (layout_tbl layout5 2 none) (some layout_dev) 256 300 0
      = zbc_outcome.ok { ret := -6, world := 0, calls := [] } ∧
    zbc_set_zones hacked_tbl (some layout_dev) 256 128 0
      = zbc_outcome.ok
        { ret := 0, world := 1,
          calls := [zbc_call.zbd_set_zones zbc_ops_id.zbc_fake_ops layout_dev 256 128 0] } ∧
    zbc_set_write_pointer hacked_tbl (some layout_dev) 256 300 0
      = zbc_outcome.ok
        { ret := 0, world := 1,
          calls := [zbc_call.zbd_set_wp zbc_ops_id.zbc_fake_ops layout_dev 256 300 0] } :=
  ⟨(zbc_set_ops_gated (layout_tbl layout5 2 none) layout_dev zbc_ops_id.zbc_fake_ops rfl
      256 128 0).1 rfl,
   (zbc_set_ops_gated (layout_tbl layout5 2 none) layout_dev zbc_ops_id.zbc_fake_ops rfl
      256 300 0).2.1 rfl,
   (zbc_set_ops_gated hacked_tbl layout_dev zbc_ops_id.zbc_fake_ops rfl 256 128 0).2.2.1 _ rfl,
   (zbc_set_ops_gated hacked_tbl layout_dev zbc_ops_id.zbc_fake_ops rfl 256 300 0).2.2.2 _ rfl⟩

/-- C15: for a present handle, `zbc_flush` calls the bound provider's `zbd_flush` exactly once
with the arguments `(0, 0, 0)` and returns its result unchanged. -/
theorem zbc_flush_delegates {σ : Type} (tbl : zbc_ops_id → zbc_ops σ) (d : zbc_device)
    (id : zbc_ops_id) (hops : d.zbd_ops = some id) (w : σ) :
    zbc_flush tbl (some d) w = zbc_outcome.ok
      { ret := ((tbl id).zbd_flush d 0 0 0 w).1, world := ((tbl id).zbd_flush d 0 0 0 w).2,
        calls := [zbc_call.zbd_flush id d 0 0 0 ((tbl id).zbd_flush d 0 0 0 w).1] } := by
  simp [zbc_flush, hops]

/-- Witness of C15: one flush on the test device. -/
theorem zbc_flush_delegates_witness :
    zbc_flush (layout_tbl layout5 2 none) (some layout_dev) 0 = zbc_outcome.ok
      { ret := 0, world := 1,
        calls := [zbc_call.zbd_flush zbc_ops_id.zbc_fake_ops layout_dev 0 0 0 0] } :=
  zbc_flush_delegates (layout_tbl layout5 2 none) layout_dev zbc_ops_id.zbc_fake_ops rfl 0

/-! ### Absent arguments -/

/-- C13 (what the code does): with an absent handle `zbc_close`, `zbc_flush`,
`zbc_reset_write_pointer`, `zbc_set_zones` and `zbc_set_write_pointer` dereference `NULL`
instead of returning `-EFAULT`; so do `zbc_open` with an absent slot once a provider has
accepted, and `zbc_list_zones` with an absent output once the zones are read.  The sibling
functions `zbc_get_device_info`, `zbc_report_zones` and `zbc_pread` test the handle and
return `-EFAULT` with no provider call. -/
theorem zbc_null_handle_faults {σ : Type} (tbl : zbc_ops_id → zbc_ops σ) (a b : Nat) (w : σ) :
    zbc_close tbl none w = zbc_outcome.fault ∧
    zbc_flush tbl none w = zbc_outcome.fault ∧
    zbc_reset_write_pointer tbl none a w = zbc_outcome.fault ∧
    zbc_set_zones tbl none a b w = zbc_outcome.fault ∧
    zbc_set_write_pointer tbl none a b w = zbc_outcome.fault ∧
    zbc_open (stub_tbl 0 0 0) "/dev/sda" 2 none 0 = zbc_outcome.fault ∧
    zbc_list_zones 5 (layout_tbl layout5 2 none) (fun _ => true) 0 (some layout_dev) 0 0
      none (some 0) 0 = zbc_outcome.fault ∧
    zbc_get_device_info none (some stub_info) w
      = zbc_outcome.ok { ret := -EFAULT, info := some stub_info, world := w, calls := [] } ∧
    zbc_report_zones 0 tbl none a b (some []) (some 0) w
      = zbc_outcome.ok
        { ret := -EFAULT, nr_zones := some 0, zones := some [], world := w, calls := [] } ∧
    zbc_pread tbl none (some zbc_zone_zero) (some a) b 0 w
      = zbc_outcome.ok { ret := -EFAULT, world := w, calls := [] } :=
  ⟨rfl, rfl, rfl, rfl, rfl, by rfl, by rfl, rfl, rfl, by simp [zbc_pread]; decide⟩

/-- C14: `zbc_get_device_info` returns `-EFAULT` exactly when the handle or the output target
is absent, and then writes nothing; otherwise it returns 0 and the output is the handle's
cached device info.  In both cases no provider operation is called. -/
theorem zbc_get_device_info_contract {σ : Type} (dev : Option zbc_device)
    (info : Option zbc_device_info) (w : σ) :
    ∃ r, zbc_get_device_info dev info w = zbc_outcome.ok r ∧
      r.world = w ∧ r.calls = [] ∧
      (r.ret = -EFAULT ↔ (dev = none ∨ info = none)) ∧
      ((dev = none ∨ info = none) → r.info = info) ∧
      (∀ d i, dev = some d → info = some i → r.ret = 0 ∧ r.info = some d.zbd_info) := by
  cases dev with
  | none =>
    exact ⟨_, rfl, rfl, rfl, ⟨fun _ => Or.inl rfl, fun _ => rfl⟩, fun _ => rfl,
      fun d i h => by cases h⟩
  | some d =>
    cases info with
    | none =>
      exact ⟨_, rfl, rfl, rfl, ⟨fun _ => Or.inr rfl, fun _ => rfl⟩, fun _ => rfl,
        fun d i _ h => by cases h⟩
    | some i =>
      refine ⟨_, rfl, rfl, rfl, ⟨fun h => ?_, fun h => ?_⟩, fun h => ?_, fun d1 i1 h1 _ => ?_⟩
      · have h0 : (0 : Int) = -EFAULT := h
        exact absurd h0 (by decide)
      · rcases h with h | h <;> cases h
      · rcases h with h | h <;> cases h
      · cases h1
        exact ⟨rfl, rfl⟩

/-- Witness of C14: a present handle and target give the cached device info. -/
theorem zbc_get_device_info_contract_witness :
    ∃ r, zbc_get_device_info (some layout_dev) (some (zbc_device_info.mk 0 0 0 0)) (0 : Nat)
        = zbc_outcome.ok r ∧
      r.world = 0 ∧ r.calls = [] ∧
      (r.ret = -EFAULT ↔
        ((some layout_dev : Option zbc_device) = none ∨
          (some (zbc_device_info.mk 0 0 0 0) : Option zbc_device_info) = none)) ∧
      (((some layout_dev : Option zbc_device) = none ∨
          (some (zbc_device_info.mk 0 0 0 0) : Option zbc_device_info) = none) →
        r.info = some (zbc_device_info.mk 0 0 0 0)) ∧
      (∀ d i, some layout_dev = some d → some (zbc_device_info.mk 0 0 0 0) = some i →
        r.ret = 0 ∧ r.info = some d.zbd_info) :=
  zbc_get_device_info_contract (some layout_dev) (some (zbc_device_info.mk 0 0 0 0)) 0

/-! ### The pagination loop, call by call -/

/-- C18: with a present handle, a present buffer and `*nr_zones == 0`, `zbc_report_zones`
makes no provider call, returns 0, leaves the count at 0 and the buffer as it was. -/
theorem zbc_report_zones_capacity_zero {σ : Type} (fuel : Nat) (tbl : zbc_ops_id → zbc_ops σ)
    (d : zbc_device) (start_lba ro : Nat) (buf : List zbc_zone) (w : σ) :
    zbc_report_zones fuel tbl (some d) start_lba ro (some buf) (some 0) w = zbc_outcome.ok
      { ret := 0, nr_zones := some 0, zones := some buf, world := w, calls := [] } := by
  cases fuel <;> simp [zbc_report_zones, zbc_report_zones_loop]

/-! ### `zbc_open` over any registry -/

/-- A probe of providers that all reject the path calls each of them once, in order, and ends
with the result of the last one; over no provider it leaves the variables as they were. -/
theorem zbc_open_probe_all_reject {σ : Type} (tbl : zbc_ops_id → zbc_ops σ) (filename : String)
    (flags : Int) (registry : List zbc_ops_id) :
    ∀ v : zbc_open_vars σ,
      (∀ id ∈ registry, ∀ dev w1, ((tbl id).zbd_open filename flags dev w1).1.1 ≠ 0) →
      ∃ v1 rets, zbc_open_probe tbl filename flags registry v = zbc_outcome.ok v1 ∧
        rets.length = registry.length ∧
        v1.calls = v.calls ++ zbc_open_calls filename flags registry rets ∧
        (∀ x ∈ rets, x ≠ 0) ∧
        (registry = [] → v1.ret = v.ret) ∧
        (registry ≠ [] → rets.getLast? = some v1.ret) := by
  induction registry with
  | nil =>
    intro v _
    exact ⟨v, [], rfl, rfl, by simp [zbc_open_calls], by simp, fun _ => rfl,
      fun h => absurd rfl h⟩
  | cons id rest ih =>
    intro v hrej
    have hid := hrej id (List.mem_cons_self _ _) v.dev v.world
    obtain ⟨v1, rets, hprobe, hlen, hcalls, hall, hnil, hlast⟩ := ih
      { ret := ((tbl id).zbd_open filename flags v.dev v.world).1.1,
        dev := ((tbl id).zbd_open filename flags v.dev v.world).1.2,
        world := ((tbl id).zbd_open filename flags v.dev v.world).2,
        calls := v.calls ++ [zbc_call.zbd_open id filename flags
          ((tbl id).zbd_open filename flags v.dev v.world).1.1] }
      (fun i hi => hrej i (List.mem_cons_of_mem _ hi))
    refine ⟨v1, ((tbl id).zbd_open filename flags v.dev v.world).1.1 :: rets, ?_, ?_, ?_, ?_,
      (fun h => by cases h), fun _ => ?_⟩
    · simp only [zbc_open_probe, hid, if_false]
      exact hprobe
    · simp [hlen]
    · rw [hcalls]
      simp [zbc_open_calls]
    · intro x hx
      rcases List.mem_cons.mp hx with hx | hx
      · rw [hx]
        exact hid
      · exact hall x hx
    · cases rest with
      | nil =>
        have hr : rets = [] := List.length_eq_zero.mp (by simpa using hlen)
        rw [hr, hnil rfl]
        rfl
      | cons y ys =>
        have hne : rets ≠ [] := by
          intro h
          rw [h] at hlen
          simp at hlen
        obtain ⟨a, as, has⟩ := List.exists_cons_of_ne_nil hne
        rw [has, List.getLast?_cons_cons, ← has]
        exact hlast (by simp)

/-- C19: when every provider of the registry rejects the path, `zbc_open` over that registry
returns, each provider was called once in registry order with a non-zero result, the caller's
slot is left as it was, and the value returned is exactly the result of the last provider
called, whatever non-zero value that is; the initial `-ENODEV` is what is returned when the
registry is empty.  For the compiled-in registry this is `zbc_open`, and the last provider
called is the fake one. -/
theorem zbc_open_with_last_result {σ : Type} (registry : List zbc_ops_id)
    (tbl : zbc_ops_id → zbc_ops σ) (filename : String) (flags : Int)
    (pdev : Option (Option zbc_device)) (w : σ)
    (hrej : ∀ id ∈ registry, ∀ dev w1, ((tbl id).zbd_open filename flags dev w1).1.1 ≠ 0) :
    ∃ r rets, zbc_open_with registry tbl filename flags pdev w = zbc_outcome.ok r ∧
      r.pdev = pdev ∧ rets.length = registry.length ∧
      r.calls = zbc_open_calls filename flags registry rets ∧
      (∀ x ∈ rets, x ≠ 0) ∧
      (registry = [] → r.ret = -ENODEV) ∧
      (registry ≠ [] → rets.getLast? = some r.ret) ∧
      (registry = zbc_ops_array →
        zbc_open tbl filename flags pdev w = zbc_outcome.ok r ∧
        r.calls.getLast?
          = some (zbc_call.zbd_open zbc_ops_id.zbc_fake_ops filename flags r.ret)) := by
  obtain ⟨v1, rets, hprobe, hlen, hcalls, hall, hnil, hlast⟩ :=
    zbc_open_probe_all_reject tbl filename flags registry
      { ret := -ENODEV, dev := none, world := w, calls := [] } hrej
  have hne : v1.ret ≠ 0 := by
    cases registry with
    | nil =>
      rw [hnil rfl]
      show -ENODEV ≠ 0
      decide
    | cons id rest =>
      have h1 := hlast (by simp)
      exact hall _ (List.mem_of_getLast?_eq_some h1)
  have hrun : zbc_open_with registry tbl filename flags pdev w = zbc_outcome.ok
      { ret := v1.ret, pdev := pdev, world := v1.world, calls := v1.calls } := by
    simp only [zbc_open_with, hprobe, hne, ne_eq, not_false_eq_true, if_true]
  have hcalls1 : v1.calls = zbc_open_calls filename flags registry rets := by
    simpa using hcalls
  refine ⟨{ ret := v1.ret, pdev := pdev, world := v1.world, calls := v1.calls }, rets, hrun,
    rfl, hlen, hcalls1, hall, fun h => hnil h, hlast, fun hreg => ?_⟩
  subst hreg
  refine ⟨hrun, ?_⟩
  show v1.calls.getLast? = _
  have h3 := hlast (by simp [zbc_ops_array])
  match rets, hlen, h3 with
  | [r0, r1, r2], _, h3 =>
    simp only [List.getLast?_cons_cons, List.getLast?_singleton, Option.some.injEq] at h3
    rw [hcalls1, ← h3]
    rfl

/-- Witness of C19: the compiled-in registry with three rejecting test providers; the value
returned is the `-5` of the fake provider, the last one called. -/
theorem zbc_open_with_last_result_witness :
    zbc_open (stub_tbl (-22) (-19) (-5)) "/dev/sda" 2 (some none) 0 = zbc_outcome.ok
      { ret := -5, pdev := some none, world := 3,
        calls := [zbc_call.zbd_open zbc_ops_id.zbc_ata_ops "/dev/sda" 2 (-22),
                  zbc_call.zbd_open zbc_ops_id.zbc_scsi_ops "/dev/sda" 2 (-19),
                  zbc_call.zbd_open zbc_ops_id.zbc_fake_ops "/dev/sda" 2 (-5)] } ∧
    (∃ r rets, zbc_open_with zbc_ops_array (stub_tbl (-22) (-19) (-5)) "/dev/sda" 2
        (some none) 0 = zbc_outcome.ok r ∧
      r.pdev = some none ∧ rets.length = zbc_ops_array.length ∧
      r.calls = zbc_open_calls "/dev/sda" 2 zbc_ops_array rets ∧
      (∀ x ∈ rets, x ≠ 0) ∧
      (zbc_ops_array = [] → r.ret = -ENODEV) ∧
      (zbc_ops_array ≠ [] → rets.getLast? = some r.ret) ∧
      (zbc_ops_array = zbc_ops_array →
        zbc_open (stub_tbl (-22) (-19) (-5)) "/dev/sda" 2 (some none) 0 = zbc_outcome.ok r ∧
        r.calls.getLast?
          = some (zbc_call.zbd_open zbc_ops_id.zbc_fake_ops "/dev/sda" 2 r.ret))) :=
  ⟨by rfl,
   zbc_open_with_last_result zbc_ops_array (stub_tbl (-22) (-19) (-5)) "/dev/sda" 2
    (some none) 0 (by
      intro id _ dev w1
      cases id <;> simp [stub_tbl, stub_ops])⟩

/-- A run of the loop that ends within `fuel` rounds ends the same way with more rounds. -/
theorem zbc_report_zones_loop_fuel {σ : Type} (tbl : zbc_ops_id → zbc_ops σ) (d : zbc_device)
    (ro N : Nat) :
    ∀ (fuel fuel1 : Nat), fuel ≤ fuel1 → ∀ (v v1 : zbc_report_vars σ),
      zbc_report_zones_loop tbl d ro N fuel v = zbc_outcome.ok v1 →
      zbc_report_zones_loop tbl d ro N fuel1 v = zbc_outcome.ok v1 := by
  intro fuel
  induction fuel with
  | zero =>
    intro fuel1 _ v v1 h
    by_cases hlt : v.nz < N
    · simp [zbc_report_zones_loop, hlt] at h
    · cases fuel1 with
      | zero => exact h
      | succ n =>
        simp only [zbc_report_zones_loop, hlt, if_false] at h ⊢
        exact h
  | succ n ih =>
    intro fuel1 hle v v1 h
    cases fuel1 with
    | zero => omega
    | succ m =>
      by_cases hlt : v.nz < N
      · simp only [zbc_report_zones_loop, hlt, if_true] at h ⊢
        split at h
        · rename_i v2 hr
          exact ih m (by omega) v2 v1 h
        · exact h
        · cases h
        · cases h
      · simp only [zbc_report_zones_loop, hlt, if_false] at h ⊢
        exact h

theorem zbc_pagination_trace_last (id : zbc_ops_id) (d : zbc_device)
    (ro N cursor nz : Nat) (reply : zbc_report_reply) (hlt : nz < N)
    (hstop : reply.ret ≠ 0 ∨ reply.nr_zones = 0) :
    zbc_pagination_trace id d ro N cursor nz
      [zbc_call.zbd_report_zones id d cursor ro true (N - nz) reply] = true := by
  simp [zbc_pagination_trace, zbc_call.reply, hlt, hstop]

theorem zbc_pagination_trace_more (id : zbc_ops_id) (d : zbc_device)
    (ro N cursor nz : Nat) (reply : zbc_report_reply) (last : zbc_zone)
    (rest : List zbc_call) (hlt : nz < N) (hret : reply.ret = 0) (hcnt : reply.nr_zones ≠ 0)
    (hlast : reply.zones.getLast? = some last)
    (hrest : zbc_pagination_trace id d ro N ((last.zbz_start + last.zbz_length) % U64_MOD)
      (nz + reply.nr_zones) rest = true) :
    zbc_pagination_trace id d ro N cursor nz
      (zbc_call.zbd_report_zones id d cursor ro true (N - nz) reply :: rest) = true := by
  simp [zbc_pagination_trace, zbc_call.reply, hlt, hret, hcnt, hlast, hrest]

theorem zbc_pagination_progress_last (N nz : Nat) (c : zbc_call) (hlt : nz < N)
    (hstop : c.ret ≠ 0 ∨ nz + c.reply_nr_zones ≤ N) :
    zbc_pagination_progress N nz [c] = true := by
  simp only [zbc_pagination_progress, Bool.and_eq_true, Bool.or_eq_true, decide_eq_true_eq]
  exact ⟨hlt, hstop⟩

theorem zbc_pagination_progress_more (N nz : Nat) (c : zbc_call) (rest : List zbc_call)
    (hlt : nz < N) (hret : c.ret = 0) (hpos : 0 < c.reply_nr_zones)
    (hle : nz + c.reply_nr_zones ≤ N)
    (hrest : zbc_pagination_progress N (nz + c.reply_nr_zones) rest = true) :
    zbc_pagination_progress N nz (c :: rest) = true := by
  cases rest with
  | nil => exact zbc_pagination_progress_last N nz c hlt (Or.inr hle)
  | cons c1 rest =>
    simp only [zbc_pagination_progress, Bool.and_eq_true, decide_eq_true_eq]
    exact ⟨⟨⟨hlt, hret⟩, hpos⟩, hrest⟩

/-- C16: for a provider that never returns more zones than the capacity asked for,
`zbc_report_zones` with a present buffer of capacity `N` returns, and its provider calls are
a pagination from the caller's start LBA with nothing accumulated: the first call starts at
the caller's start LBA with requested capacity `N`; after each call that returned 0 with
`n > 0` zones the next call, made only while the accumulated count `nz` is below `N`, starts
at start + length (modulo 2^64) of the last zone written and requests `N - nz`; no call
follows one that failed or returned 0 zones, nor one after which `nz` reached `N`.  The
zones of each call are written at buffer index `nz`: the buffer ends up holding the returned
zones of all calls back to back from index 0, followed by its untouched slots. -/
theorem zbc_report_zones_pagination_trace {σ : Type} (fuel : Nat)
    (tbl : zbc_ops_id → zbc_ops σ) (d : zbc_device) (id : zbc_ops_id)
    (hops : d.zbd_ops = some id) (hcap : zbc_report_within_capacity (tbl id))
    (start_lba ro N : Nat) (buf : List zbc_zone) (w : σ)
    (hN : N < UINT_MOD) (hbuf : buf.length = N) (hfuel : N ≤ fuel) :
    ∃ r, zbc_report_zones fuel tbl (some d) start_lba ro (some buf) (some N) w
        = zbc_outcome.ok r ∧
      zbc_pagination_trace id d ro N start_lba 0 r.calls = true ∧
      r.zones = some ((r.calls.map zbc_call.reply_zones).flatten ++
        buf.drop (r.calls.map zbc_call.reply_zones).flatten.length) := by
  let I : zbc_report_vars σ → Prop := fun v =>
    v.z = v.nz ∧ v.zones.length = N ∧
      (v.calls.map zbc_call.reply_zones).flatten.length = v.nz ∧
      v.zones = (v.calls.map zbc_call.reply_zones).flatten ++ buf.drop v.nz ∧
      ∀ suffix, zbc_pagination_trace id d ro N v.start_lba v.nz suffix = true →
        zbc_pagination_trace id d ro N start_lba 0 (v.calls ++ suffix) = true
  let Q : zbc_report_vars σ → Prop := fun v =>
    zbc_pagination_trace id d ro N start_lba 0 v.calls = true ∧
      v.zones = (v.calls.map zbc_call.reply_zones).flatten ++
        buf.drop (v.calls.map zbc_call.reply_zones).flatten.length
  have hrule := zbc_report_zones_loop_rule tbl d ro N I Q
    (fun v hI hge => ⟨by
        have := hI.2.2.2.2 [] (by simp [zbc_pagination_trace, hge])
        simpa using this, by rw [hI.2.2.1]; exact hI.2.2.2.1⟩) (by
    intro v hI hlt
    obtain ⟨hz, hlen, hflat, hzones, hcont⟩ := hI
    obtain ⟨hfit, hcnt⟩ := hcap d v.start_lba ro (N - v.nz) v.world
    have hstep := zbc_take_append_drop_step (v.calls.map zbc_call.reply_zones).flatten
      ((tbl id).zbd_report_zones d v.start_lba ro true (N - v.nz) v.world).1.zones buf v.nz hflat
    by_cases hret : ((tbl id).zbd_report_zones d v.start_lba ro true (N - v.nz) v.world).1.ret = 0
    · have hcnt1 := hcnt hret
      by_cases hzero :
          ((tbl id).zbd_report_zones d v.start_lba ro true (N - v.nz) v.world).1.nr_zones = 0
      · have hnil : ((tbl id).zbd_report_zones d v.start_lba ro true (N - v.nz) v.world).1.zones
            = [] := List.length_eq_zero.mp (by omega)
        refine ⟨_, false, zbc_report_zones_round_zero tbl d id hops ro N hN v hz hlt hret hzero
          hnil, (fun h => by cases h), fun _ => ⟨?_, ?_⟩⟩
        · exact hcont _ (zbc_pagination_trace_last id d ro N v.start_lba v.nz _ hlt
            (Or.inr hzero))
        · show v.zones = _
          simp [zbc_call.reply_zones, hnil, hflat, ← hzones]
      · obtain ⟨last, hlast, hround⟩ := zbc_report_zones_round_more tbl d id hops ro N hN v hz
          hlen hlt hfit hret hcnt1 hzero
        refine ⟨_, true, hround, fun _ => ⟨⟨rfl, ?_, ?_, ?_, ?_⟩, ?_⟩, (fun h => by cases h)⟩
        · show List.length _ = N
          rw [zbc_store_zones_length _ _ _ (by omega), hlen]
        · show _ = v.nz + _
          simp [zbc_call.reply_zones, hflat]
        · show _ ++ _ ++ _ = _
          rw [hzones, hstep]
          simp [zbc_call.reply_zones]
        · intro suffix hsuffix
          show zbc_pagination_trace id d ro N start_lba 0 ((v.calls ++ [_]) ++ suffix) = true
          rw [List.append_assoc]
          refine hcont _ (zbc_pagination_trace_more id d ro N v.start_lba v.nz _ last suffix hlt
            hret hzero hlast ?_)
          rw [hcnt1]
          exact hsuffix
        · show v.nz < v.nz + _
          omega
    · refine ⟨_, false, zbc_report_zones_round_fail tbl d id hops ro N hN v hz hlen hfit hlt
        hret, (fun h => by cases h), fun _ => ⟨?_, ?_⟩⟩
      · exact hcont _ (zbc_pagination_trace_last id d ro N v.start_lba v.nz _ hlt
          (Or.inl hret))
      · show _ ++ _ ++ _ = _
        rw [hzones, hstep]
        simp [zbc_call.reply_zones, hflat])
  obtain ⟨v1, hloop, hQ1, hQ2⟩ := hrule fuel
    { ret := 0, start_lba := start_lba, z := 0, nz := 0, zones := buf, world := w, calls := [] }
    ⟨rfl, hbuf, by simp, by simp, fun suffix h => by simpa using h⟩ (by simpa using hfuel)
  exact ⟨{ ret := v1.ret, nr_zones := some (if v1.ret = 0 then v1.nz else N),
           zones := some v1.zones, world := v1.world, calls := v1.calls },
    by simp only [zbc_report_zones, hloop], hQ1, by rw [hQ2]⟩

/-- Witness of C16: capacity 5 against the 5-zone test layout served 2 zones at a time; the
three calls start at LBA 0, 512 and 768 and request 5, 3 and 1 zones. -/
theorem zbc_report_zones_pagination_trace_witness :
    zbc_report_zones 5 (layout_tbl layout5 2 none) (some layout_dev) 0 0
        (some (List.replicate 5 zbc_zone_zero)) (some 5) 0 = zbc_outcome.ok
      { ret := 0, nr_zones := some 5, zones := some layout5, world := 3,
        calls := [zbc_call.zbd_report_zones zbc_ops_id.zbc_fake_ops layout_dev 0 0 true 5
                    { ret := 0, nr_zones := 2,
                      zones := [layout_zone 0 256, layout_zone 256 256] },
                  zbc_call.zbd_report_zones zbc_ops_id.zbc_fake_ops layout_dev 512 0 true 3
                    { ret := 0, nr_zones := 2,
                      zones := [layout_zone 512 128, layout_zone 640 128] },
                  zbc_call.zbd_report_zones zbc_ops_id.zbc_fake_ops layout_dev 768 0 true 1
                    { ret := 0, nr_zones := 1, zones := [layout_zone 768 256] }] } ∧
    (∃ r, zbc_report_zones 5 (layout_tbl layout5 2 none) (some layout_dev) 0 0
        (some (List.replicate 5 zbc_zone_zero)) (some 5) 0 = zbc_outcome.ok r ∧
      zbc_pagination_trace zbc_ops_id.zbc_fake_ops layout_dev 0 5 0 0 r.calls = true ∧
      r.zones = some ((r.calls.map zbc_call.reply_zones).flatten ++
        (List.replicate 5 zbc_zone_zero).drop
          (r.calls.map zbc_call.reply_zones).flatten.length)) :=
  ⟨by rfl,
   zbc_report_zones_pagination_trace 5 (layout_tbl layout5 2 none) layout_dev
    zbc_ops_id.zbc_fake_ops rfl (layout_ops_within_capacity layout5 2 none) 0 0 5
    (List.replicate 5 zbc_zone_zero) 0 (by decide) (by decide) (by decide)⟩

/-- C17: for a provider that never returns more zones than the capacity asked for, the
pagination loop of `zbc_report_zones` with capacity `N` ends within `N` rounds, after at most
`N` provider calls: every call is made with the accumulated count `nz` below `N`, every call
that does not end the loop returned a positive count, which is added to `nz`, and `nz` never
exceeds `N`. -/
theorem zbc_report_zones_terminates {σ : Type} (fuel : Nat)
    (tbl : zbc_ops_id → zbc_ops σ) (d : zbc_device) (id : zbc_ops_id)
    (hops : d.zbd_ops = some id) (hcap : zbc_report_within_capacity (tbl id))
    (start_lba ro N : Nat) (buf : List zbc_zone) (w : σ)
    (hN : N < UINT_MOD) (hbuf : buf.length = N) (hfuel : N ≤ fuel) :
    ∃ r, zbc_report_zones fuel tbl (some d) start_lba ro (some buf) (some N) w
        = zbc_outcome.ok r ∧
      zbc_report_zones N tbl (some d) start_lba ro (some buf) (some N) w
        = zbc_outcome.ok r ∧
      r.calls.length ≤ N ∧ zbc_pagination_progress N 0 r.calls = true := by
  let I : zbc_report_vars σ → Prop := fun v =>
    v.z = v.nz ∧ v.nz ≤ N ∧ v.zones.length = N ∧ v.calls.length ≤ v.nz ∧
      ∀ suffix, zbc_pagination_progress N v.nz suffix = true →
        zbc_pagination_progress N 0 (v.calls ++ suffix) = true
  let Q : zbc_report_vars σ → Prop := fun v =>
    v.calls.length ≤ N ∧ zbc_pagination_progress N 0 v.calls = true
  have hrule := zbc_report_zones_loop_rule tbl d ro N I Q
    (fun v hI _ => ⟨by have := hI.2.1; have := hI.2.2.2.1; omega, by
        have := hI.2.2.2.2 [] (by simp [zbc_pagination_progress, hI.2.1])
        simpa using this⟩) (by
    intro v hI hlt
    obtain ⟨hz, hle, hlen, hcalls, hcont⟩ := hI
    obtain ⟨hfit, hcnt⟩ := hcap d v.start_lba ro (N - v.nz) v.world
    by_cases hret : ((tbl id).zbd_report_zones d v.start_lba ro true (N - v.nz) v.world).1.ret = 0
    · have hcnt1 := hcnt hret
      by_cases hzero :
          ((tbl id).zbd_report_zones d v.start_lba ro true (N - v.nz) v.world).1.nr_zones = 0
      · have hnil : ((tbl id).zbd_report_zones d v.start_lba ro true (N - v.nz) v.world).1.zones
            = [] := List.length_eq_zero.mp (by omega)
        refine ⟨_, false, zbc_report_zones_round_zero tbl d id hops ro N hN v hz hlt hret hzero
          hnil, (fun h => by cases h), fun _ => ⟨?_, ?_⟩⟩
        · show (v.calls ++ [_]).length ≤ N
          rw [List.length_append, List.length_singleton]
          omega
        · refine hcont _ (zbc_pagination_progress_last N v.nz _ hlt (Or.inr ?_))
          show v.nz + ((tbl id).zbd_report_zones d v.start_lba ro true (N - v.nz)
            v.world).1.nr_zones ≤ N
          omega
      · obtain ⟨last, _, hround⟩ := zbc_report_zones_round_more tbl d id hops ro N hN v hz hlen
          hlt hfit hret hcnt1 hzero
        refine ⟨_, true, hround, fun _ => ⟨⟨rfl, ?_, ?_, ?_, ?_⟩, ?_⟩, (fun h => by cases h)⟩
        · show v.nz + _ ≤ N
          omega
        · show List.length _ = N
          rw [zbc_store_zones_length _ _ _ (by omega), hlen]
        · show (v.calls ++ [_]).length ≤ v.nz + _
          rw [List.length_append, List.length_singleton]
          omega
        · intro suffix hsuffix
          show zbc_pagination_progress N 0 ((v.calls ++ [_]) ++ suffix) = true
          rw [List.append_assoc]
          refine hcont _ (zbc_pagination_progress_more N v.nz _ suffix hlt hret ?_ ?_ ?_)
          · show 0 < ((tbl id).zbd_report_zones d v.start_lba ro true (N - v.nz)
              v.world).1.nr_zones
            omega
          · show v.nz + ((tbl id).zbd_report_zones d v.start_lba ro true (N - v.nz)
              v.world).1.nr_zones ≤ N
            omega
          · show zbc_pagination_progress N (v.nz + ((tbl id).zbd_report_zones d v.start_lba ro
              true (N - v.nz) v.world).1.nr_zones) suffix = true
            rw [hcnt1]
            exact hsuffix
        · show v.nz < v.nz + _
          omega
    · refine ⟨_, false, zbc_report_zones_round_fail tbl d id hops ro N hN v hz hlen hfit hlt
        hret, (fun h => by cases h), fun _ => ⟨?_, ?_⟩⟩
      · show (v.calls ++ [_]).length ≤ N
        rw [List.length_append, List.length_singleton]
        omega
      · exact hcont _ (zbc_pagination_progress_last N v.nz _ hlt (Or.inl hret)))
  have hinit : I { ret := 0, start_lba := start_lba, z := 0, nz := 0, zones := buf,
                   world := w, calls := [] } :=
    ⟨rfl, Nat.zero_le _, hbuf, Nat.le_refl _, fun suffix h => by simpa using h⟩
  obtain ⟨v1, hloop, hQ1, hQ2⟩ := hrule fuel _ hinit (by simpa using hfuel)
  obtain ⟨v2, hloop2, _, _⟩ := hrule N _ hinit (by simp)
  have hsame : v2 = v1 := by
    have h := zbc_report_zones_loop_fuel tbl d ro N N fuel hfuel _ v2 hloop2
    rw [hloop] at h
    cases h
    rfl
  rw [hsame] at hloop2
  exact ⟨{ ret := v1.ret, nr_zones := some (if v1.ret = 0 then v1.nz else N),
           zones := some v1.zones, world := v1.world, calls := v1.calls },
    by simp only [zbc_report_zones, hloop], by simp only [zbc_report_zones, hloop2], hQ1, hQ2⟩

/-- Witness of C17: capacity 5 against the 5-zone test layout served 2 zones at a time ends
after 3 provider calls. -/
theorem zbc_report_zones_terminates_witness :
    ∃ r, zbc_report_zones 7 (layout_tbl layout5 2 none) (some layout_dev) 0 0
        (some (List.replicate 5 zbc_zone_zero)) (some 5) 0 = zbc_outcome.ok r ∧
      zbc_report_zones 5 (layout_tbl layout5 2 none) (some layout_dev) 0 0
        (some (List.replicate 5 zbc_zone_zero)) (some 5) 0 = zbc_outcome.ok r ∧
      r.calls.length ≤ 5 ∧ zbc_pagination_progress 5 0 r.calls = true :=
  zbc_report_zones_terminates 7 (layout_tbl layout5 2 none) layout_dev
    zbc_ops_id.zbc_fake_ops rfl (layout_ops_within_capacity layout5 2 none) 0 0 5
    (List.replicate 5 zbc_zone_zero) 0 (by decide) (by decide) (by decide)

end Zbc
